import Mathlib

/-!
# LTC2413 driver: a shallow embedding

The driver of `src/ltc2413.hpp` / `src/ltc2413.cpp` as pure Lean functions.

* `float` values are exact rationals (`ℚ`).
* `int32_t` values are integers (`Int`); every `int32_t` operation of the
  source is followed by an explicit two's-complement wrap (`wrapInt32`).
* The Arduino runtime (`digitalWrite`, `digitalRead`, `SPI`) is a `World`:
  what the device will answer, and the trace of operations issued so far.
  A method of the driver is a function of the driver state and the world
  that returns its result, the new driver state and the new world.
-/

/-! ## Machine integers -/

/-- Two's-complement reading of an integer as an `int32_t`. -/
def wrapInt32 (x : Int) : Int := (x + 2147483648) % 4294967296 - 2147483648

/-- Subtraction of two `int32_t` values (`a - b`). -/
def Int32.sub (a b : Int) : Int := wrapInt32 (a - b)

/-- Multiplication of two `int32_t` values (`a * b`). -/
def Int32.mul (a b : Int) : Int := wrapInt32 (a * b)

/-- Right shift of an `int32_t` (`a >> n`): arithmetic shift, the sign is kept. -/
def Int32.shr (a : Int) (n : Nat) : Int := a >>> n

/-- The macro `LIMIT(val, min, max)` of `ltc2413.hpp`, line 24:
`(val < min) ? min : (val > max) ? max : val`. -/
def LIMIT {α : Type} [LT α] [DecidableRel (fun a b : α => a < b)] (val min max : α) : α :=
  if val < min then min else if val > max then max else val

/-! ## The Arduino runtime -/

/-- Logic level of a digital line (`LOW`, `HIGH`). -/
inductive PinLevel where
  | LOW
  | HIGH
  deriving DecidableEq, Repr

/-- A digital line: a numbered pin, or the board's `MISO` line. -/
inductive Pin where
  | num (n : Nat)
  | MISO
  deriving DecidableEq, Repr

/-- Bit order of the serial bus. -/
inductive BitOrder where
  | LSBFIRST
  | MSBFIRST
  deriving DecidableEq, Repr

/-- Data mode of the serial bus. -/
inductive SPIMode where
  | SPI_MODE0
  | SPI_MODE1
  | SPI_MODE2
  | SPI_MODE3
  deriving DecidableEq, Repr

/-- The value `SPISettings(clock, bitOrder, dataMode)`. -/
structure SPISettings where
  clock : Nat
  bitOrder : BitOrder
  dataMode : SPIMode
  deriving DecidableEq, Repr

/-- One operation issued to the runtime. -/
inductive IOEvent where
  | pinModeOutput (pin : Nat)
  | digitalWrite (pin : Nat) (level : PinLevel)
  | digitalRead (pin : Pin)
  | spiBegin
  | spiEnd
  | beginTransaction (settings : SPISettings)
  | transfer (out : Nat)
  | transfer16 (out : Nat)
  | endTransaction
  deriving DecidableEq, Repr

/-- The world outside the driver: the level the data-out line shows at each
sample, the word the device shifts out at each bus transfer, how many of
each were consumed, and the operations issued so far (oldest first). -/
structure World where
  misoLevel : Nat → PinLevel
  misoReads : Nat
  spiData : Nat → Nat
  spiTransfers : Nat
  trace : List IOEvent

/-- The call `pinMode(pin, OUTPUT)`. -/
def pinModeOutput (pin : Nat) (w : World) : World :=
  { w with trace := w.trace ++ [IOEvent.pinModeOutput pin] }

/-- The call `digitalWrite(pin, level)`. -/
def digitalWrite (pin : Nat) (level : PinLevel) (w : World) : World :=
  { w with trace := w.trace ++ [IOEvent.digitalWrite pin level] }

/-- The call `digitalRead(MISO)`: the next level of the data-out line. -/
def digitalReadMISO (w : World) : PinLevel × World :=
  (w.misoLevel w.misoReads,
   { w with misoReads := w.misoReads + 1, trace := w.trace ++ [IOEvent.digitalRead Pin.MISO] })

/-- The call `SPI.begin()`. -/
def SPI.begin (w : World) : World :=
  { w with trace := w.trace ++ [IOEvent.spiBegin] }

/-- The call `SPI.end()`. -/
def SPI.end (w : World) : World :=
  { w with trace := w.trace ++ [IOEvent.spiEnd] }

/-- The call `SPI.beginTransaction(settings)`. -/
def SPI.beginTransaction (settings : SPISettings) (w : World) : World :=
  { w with trace := w.trace ++ [IOEvent.beginTransaction settings] }

/-- The call `SPI.endTransaction()`. -/
def SPI.endTransaction (w : World) : World :=
  { w with trace := w.trace ++ [IOEvent.endTransaction] }

/-- The call `SPI.transfer(out)`: sends a byte, returns the byte received. -/
def SPI.transfer (out : Nat) (w : World) : Nat × World :=
  (w.spiData w.spiTransfers % 256,
   { w with spiTransfers := w.spiTransfers + 1, trace := w.trace ++ [IOEvent.transfer out] })

/-- The call `SPI.transfer16(out)`: sends a 16-bit word, returns the word received. -/
def SPI.transfer16 (out : Nat) (w : World) : Nat × World :=
  (w.spiData w.spiTransfers % 65536,
   { w with spiTransfers := w.spiTransfers + 1, trace := w.trace ++ [IOEvent.transfer16 out] })

/-! ## The driver state -/

/-- The enumeration `LTC2413::ConvPolarityType`. -/
inductive LTC2413.ConvPolarityType where
  | UNIPOLAR
  | BIPOLAR
  deriving DecidableEq, Repr

/-- The structure `LTC2413::ConvFactorsType`. -/
structure LTC2413.ConvFactorsType where
  VRef_P : ℚ
  VRef_N : ℚ
  StepSize : ℚ
  MinimumCode : Int
  MaximumCode : Int
  ZeroOffset : Int
  BitShift : Nat
  Polarity : LTC2413.ConvPolarityType
  deriving DecidableEq

/-- The union `LTC2413::ConvBufferType`: two 16-bit words. -/
structure LTC2413.ConvBufferType where
  buffer_16bit_0 : Nat
  buffer_16bit_1 : Nat

/-- The member `buffer_32bit` of the union: the two words read as one
`int32_t`, word 0 in the low half and word 1 in the high half
(little-endian target). -/
def LTC2413.ConvBufferType.buffer_32bit (c : LTC2413.ConvBufferType) : Int :=
  wrapInt32 ((c.buffer_16bit_1 : Int) * 65536 + (c.buffer_16bit_0 : Int))

/-- The data members of class `LTC2413` (`m_initialized` is declared but never
written or read, and is left out). -/
structure LTC2413 where
  m_csPin : Nat
  m_EoC : Bool
  m_spiSettings : SPISettings
  m_convFactors : LTC2413.ConvFactorsType
  deriving DecidableEq

/-! ## Conversion factors -/

/-- The method `ConvFactorsType::setResolution(uint8_t resolution)`.
`pow(2, resolution)` is the exact power of two. -/
def LTC2413.ConvFactorsType.setResolution (f : LTC2413.ConvFactorsType) (resolution : Nat) :
    LTC2413.ConvFactorsType :=
  let resolution := LIMIT resolution 8 29
  let BitShift := (29 - resolution) % 256
  let MaximumCode := Int.tdiv (wrapInt32 (2 ^ resolution)) 2
  let MinimumCode := Int32.mul MaximumCode (-1)
  let StepSize := (f.VRef_P - f.VRef_N) / ((Int32.sub MaximumCode MinimumCode : Int) : ℚ)
  { f with BitShift := BitShift, MaximumCode := MaximumCode, MinimumCode := MinimumCode,
           StepSize := StepSize }

/-- The constructor `ConvFactorsType(voltage_reference, resolution, polarity)`.
`LIMIT` is a textual macro, so `LIMIT(voltage_reference, 0, 5) / 2.0f` is
`(voltage_reference < 0) ? 0 : (voltage_reference > 5) ? 5 : voltage_reference / 2.0f`.
The members that `setResolution` assigns start at zero here. -/
def LTC2413.ConvFactorsType.ctor (voltage_reference : ℚ) (resolution : Nat)
    (polarity : LTC2413.ConvPolarityType) : LTC2413.ConvFactorsType :=
  let VRef_P : ℚ :=
    if voltage_reference < 0 then 0 else if voltage_reference > 5 then 5 else voltage_reference / 2
  let VRef_N : ℚ := VRef_P * (-1)
  let f0 : LTC2413.ConvFactorsType :=
    { VRef_P := VRef_P, VRef_N := VRef_N, StepSize := 0, MinimumCode := 0, MaximumCode := 0,
      ZeroOffset := 0, BitShift := 0, Polarity := polarity }
  let f1 := LTC2413.ConvFactorsType.setResolution f0 resolution
  { f1 with Polarity := polarity }

/-! ## The driver's methods -/

/-- The constructor `LTC2413(cs_pin, voltage_reference)`; the conversion factors
take their default resolution (24) and polarity (`BIPOLAR`). -/
def LTC2413.ctor (cs_pin : Nat) (voltage_reference : ℚ) (w : World) : LTC2413 × World :=
  let d : LTC2413 :=
    { m_csPin := cs_pin, m_EoC := false,
      m_spiSettings := { clock := 1000000, bitOrder := BitOrder.MSBFIRST, dataMode := SPIMode.SPI_MODE0 },
      m_convFactors :=
        LTC2413.ConvFactorsType.ctor voltage_reference 24 LTC2413.ConvPolarityType.BIPOLAR }
  let w1 := pinModeOutput d.m_csPin w
  let w2 := digitalWrite d.m_csPin PinLevel.HIGH w1
  let w3 := SPI.begin w2
  (d, w3)

/-- The method `setConvPolarity(conv_polarity)`. -/
def LTC2413.setConvPolarity (d : LTC2413) (conv_polarity : LTC2413.ConvPolarityType) : LTC2413 :=
  { d with m_convFactors := { d.m_convFactors with Polarity := conv_polarity } }

/-- The method `setConvResolution(conv_resolution)`. -/
def LTC2413.setConvResolution (d : LTC2413) (conv_resolution : Nat) : LTC2413 :=
  { d with m_convFactors := d.m_convFactors.setResolution conv_resolution }

/-- The method `isConvReady()`. -/
def LTC2413.isConvReady (d : LTC2413) (w : World) : Bool × LTC2413 × World :=
  if !d.m_EoC then
    let w1 := digitalWrite d.m_csPin PinLevel.LOW w
    let r := digitalReadMISO w1
    let d1 : LTC2413 := { d with m_EoC := if r.1 = PinLevel.HIGH then false else true }
    let w3 := digitalWrite d.m_csPin PinLevel.HIGH r.2
    (d1.m_EoC, d1, w3)
  else
    (d.m_EoC, d, w)

/-- The method `clearConversion()`. -/
def LTC2413.clearConversion (d : LTC2413) (w : World) : Bool × LTC2413 × World :=
  if d.m_EoC then
    let w1 := SPI.beginTransaction d.m_spiSettings w
    let w2 := digitalWrite d.m_csPin PinLevel.LOW w1
    let r := SPI.transfer 0xFF w2
    let w4 := digitalWrite d.m_csPin PinLevel.HIGH r.2
    let w5 := SPI.endTransaction w4
    (true, { d with m_EoC := false }, w5)
  else
    (false, d, w)

/-- The method `read_device()`. -/
def LTC2413.read_device (d : LTC2413) (w : World) : Int × LTC2413 × World :=
  if d.m_EoC then
    let w1 := SPI.beginTransaction d.m_spiSettings w
    let w2 := digitalWrite d.m_csPin PinLevel.LOW w1
    let r1 := SPI.transfer16 0xFFFF w2
    let r0 := SPI.transfer16 0xFFFF r1.2
    let _conv : LTC2413.ConvBufferType := { buffer_16bit_1 := r1.1, buffer_16bit_0 := r0.1 }
    let w5 := digitalWrite d.m_csPin PinLevel.HIGH r0.2
    let w6 := SPI.endTransaction w5
    (_conv.buffer_32bit, { d with m_EoC := false }, w6)
  else
    (0, d, w)

/-- The method `getConversion()`. The two enumerators are the only values of
`ConvPolarityType`, so the `return` after the `switch` is never reached. -/
def LTC2413.getConversion (d : LTC2413) (w : World) : Int × LTC2413 × World :=
  match d.m_convFactors.Polarity with
  | LTC2413.ConvPolarityType.UNIPOLAR =>
    let r := LTC2413.read_device d w
    (Int32.sub (Int32.shr r.1 r.2.1.m_convFactors.BitShift) r.2.1.m_convFactors.MaximumCode,
     r.2.1, r.2.2)
  | LTC2413.ConvPolarityType.BIPOLAR =>
    let r := LTC2413.read_device d w
    (Int32.sub (Int32.shr r.1 r.2.1.m_convFactors.BitShift)
       (Int32.sub r.2.1.m_convFactors.MaximumCode r.2.1.m_convFactors.MinimumCode),
     r.2.1, r.2.2)

/-- A world whose device shifts out the words `first`, `second`, ... in turn and
whose data-out line shows `level` at every sample. -/
def World.ofWords (level : PinLevel) (words : List Nat) : World :=
  { misoLevel := fun _ => level, misoReads := 0,
    spiData := fun n => words.getD n 0, spiTransfers := 0, trace := [] }

/-! ## Fixtures and repeated polling -/

/-- A driver as the constructor leaves it (chip-select on pin 10, 5 V reference,
24 bits, bipolar), with the end-of-conversion flag set to `ready`. -/
def LTC2413.sample (ready : Bool) : LTC2413 :=
  { (LTC2413.ctor 10 5 (World.ofWords PinLevel.HIGH [])).1 with m_EoC := ready }

/-- The results of `n` successive calls of `isConvReady()`, oldest first, with
the driver state and the world after the last call. -/
def LTC2413.isConvReadyTimes : Nat → LTC2413 → World → List Bool × LTC2413 × World
  | 0, d, w => ([], d, w)
  | n + 1, d, w =>
    let r := LTC2413.isConvReady d w
    let rest := LTC2413.isConvReadyTimes n r.2.1 r.2.2
    (r.1 :: rest.1, rest.2)

/-! ## The calibration model

The arithmetic of the calibration is exact: a `float` is a rational, the
conversion of a code to `float` does not round (a binary32 holds every code up
to `2^24` in magnitude exactly and rounds the larger ones), and neither do the
`float` operations.

A `float` division by zero yields an infinity or a NaN, which no rational
stands for. The divisors are definitions of their own
(`LTC2413.outputCodeRange`, `Calibration.rawValueRange`), the `float` value of
the step size is `LTC2413.stepSizeValue` and `Calibration.stepSizeValue`, and
the rational fields `StepSize`, `stepSize`, `ZeroOffset` and `zeroOffset` stand
for what the code stores where the divisors behind them are non-zero: the
statements about the stored values are made there. -/

/-- The values an `int32_t` can hold. -/
def isInt32 (x : Int) : Prop := -2147483648 ≤ x ∧ x < 2147483648

instance (x : Int) : Decidable (isInt32 x) := by
  unfold isInt32; infer_instance

/-- Addition of two `int32_t` values (`a + b`). -/
def Int32.add (a b : Int) : Int := wrapInt32 (a + b)

/-- The call `round(x)`: the nearest integer, a half going away from zero
(Arduino's `((x) >= 0 ? (long)((x) + 0.5) : (long)((x) - 0.5))`, the cast
truncating towards zero). -/
def Cmath.round (x : ℚ) : Int := if 0 ≤ x then ⌊x + 1 / 2⌋ else ⌈x - 1 / 2⌉

/-- The structure `TwoPointCalibration::ReferencePoint`. -/
structure TwoPointCalibration.ReferencePoint where
  refVoltage : ℚ
  outputCode : Int
  deriving DecidableEq

/-- The structure `TwoPointCalibration`. -/
structure TwoPointCalibration where
  rpLow : TwoPointCalibration.ReferencePoint
  rpHigh : TwoPointCalibration.ReferencePoint
  deriving DecidableEq

/-- The method `TwoPointCalibration::setReference(ref_voltage, output_code, ref_point)`:
the reference point after the call. -/
def TwoPointCalibration.setReference (ref_voltage : ℚ) (output_code : Int)
    (ref_point : TwoPointCalibration.ReferencePoint) : TwoPointCalibration.ReferencePoint :=
  { ref_point with refVoltage := ref_voltage, outputCode := output_code }

/-- The local `_outputCodeRange` of `LTC2413::calibrateConversion`:
`(float)(cal.rpHigh.outputCode - cal.rpLow.outputCode)`, an `int32_t` subtraction
whose result is converted. -/
def LTC2413.outputCodeRange (cal : TwoPointCalibration) : ℚ :=
  ((Int32.sub cal.rpHigh.outputCode cal.rpLow.outputCode : Int) : ℚ)

/-- A `float` value: a finite one (a rational here), an infinity, or a NaN. -/
inductive FloatValue where
  | finite (q : ℚ)
  | infinite (negative : Bool)
  | nan
  deriving DecidableEq

/-- The `float` quotient `a / b` of two finite values, a zero divisor being `+0`
(as a difference `x - x` and a converted integer 0 are): a non-zero dividend
over zero is an infinity of the sign of the dividend, and `0 / 0` is a NaN. -/
def floatDiv (a b : ℚ) : FloatValue :=
  if b = 0 then (if a = 0 then FloatValue.nan else FloatValue.infinite (decide (a < 0)))
  else FloatValue.finite (a / b)

/-- The `float` value that `LTC2413::calibrateConversion` stores in
`m_convFactors.StepSize`: `_refVoltageRange / _outputCodeRange`. -/
def LTC2413.stepSizeValue (cal : TwoPointCalibration) : FloatValue :=
  floatDiv (cal.rpHigh.refVoltage - cal.rpLow.refVoltage) (LTC2413.outputCodeRange cal)

/-- The method `LTC2413::calibrateConversion(cal)`. `StepSize` is the finite value
of `LTC2413.stepSizeValue` where `_outputCodeRange` is non-zero, and `ZeroOffset`
is what the code stores where the step size is non-zero as well. -/
def LTC2413.calibrateConversion (d : LTC2413) (cal : TwoPointCalibration) : LTC2413 :=
  let _refVoltageRange : ℚ := cal.rpHigh.refVoltage - cal.rpLow.refVoltage
  let _outputCodeRange : ℚ := LTC2413.outputCodeRange cal
  let StepSize : ℚ := _refVoltageRange / _outputCodeRange
  let _offset : ℚ := cal.rpLow.refVoltage / StepSize - (cal.rpLow.outputCode : ℚ)
  { d with m_convFactors :=
      { d.m_convFactors with StepSize := StepSize, ZeroOffset := wrapInt32 (Cmath.round _offset) } }

/-- The method `LTC2413::toVoltage(conversion)`: the offset is added in `float`. -/
def LTC2413.toVoltage (d : LTC2413) (conversion : Int) : ℚ :=
  ((conversion : ℚ) + (d.m_convFactors.ZeroOffset : ℚ)) * d.m_convFactors.StepSize

/-- The structure `Calibration::ReferencePoint`. -/
structure Calibration.ReferencePoint where
  refVoltage : ℚ
  rawValue : Int
  deriving DecidableEq

/-- The data members of class `Calibration` that its code assigns or reads
(`eepromAddress`, `referenceLow` and `referenceHigh` are declared but never
written or read, and are left out). -/
structure Calibration where
  stepSize : ℚ
  zeroOffset : Int
  deriving DecidableEq

/-- The local `_rawValueRange` of the constructor of `Calibration`:
`static_cast<float>(ref_high.rawValue) - static_cast<float>(ref_low.rawValue)`,
a `float` subtraction of the two converted codes, the conversions being exact. -/
def Calibration.rawValueRange (ref_low ref_high : Calibration.ReferencePoint) : ℚ :=
  (ref_high.rawValue : ℚ) - (ref_low.rawValue : ℚ)

/-- The `float` value that the constructor of `Calibration` stores in `stepSize`:
`_refVoltageRange / _rawValueRange`. -/
def Calibration.stepSizeValue (ref_low ref_high : Calibration.ReferencePoint) : FloatValue :=
  floatDiv (ref_high.refVoltage - ref_low.refVoltage) (Calibration.rawValueRange ref_low ref_high)

/-- The constructor `Calibration(ref_low, ref_high)`. `stepSize` is the finite
value of `Calibration.stepSizeValue` where `_rawValueRange` is non-zero, and
`zeroOffset` is what the code stores where the step size is non-zero as well. -/
def Calibration.ctor (ref_low ref_high : Calibration.ReferencePoint) : Calibration :=
  let _refVoltageRange : ℚ := ref_high.refVoltage - ref_low.refVoltage
  let _rawValueRange : ℚ := Calibration.rawValueRange ref_low ref_high
  let stepSize : ℚ := _refVoltageRange / _rawValueRange
  let _offset : ℚ := ref_low.refVoltage / stepSize - (ref_low.rawValue : ℚ)
  { stepSize := stepSize, zeroOffset := wrapInt32 (Cmath.round _offset) }

/-- The value of `round(_offset)` in the constructor of `Calibration`, before its
conversion to `int32_t` by the assignment to `zeroOffset`. -/
def Calibration.roundedOffset (ref_low ref_high : Calibration.ReferencePoint) : Int :=
  let _refVoltageRange : ℚ := ref_high.refVoltage - ref_low.refVoltage
  let _rawValueRange : ℚ := Calibration.rawValueRange ref_low ref_high
  let stepSize : ℚ := _refVoltageRange / _rawValueRange
  let _offset : ℚ := ref_low.refVoltage / stepSize - (ref_low.rawValue : ℚ)
  Cmath.round _offset

/-- The method `Calibration::ToVoltage(raw_value)`: the offset is added in
`int32_t`, the sum is converted. -/
def Calibration.ToVoltage (k : Calibration) (raw_value : Int) : ℚ :=
  ((Int32.add raw_value k.zeroOffset : Int) : ℚ) * k.stepSize

/-- The method `Calibration::ToCode(voltage)`. -/
def Calibration.ToCode (k : Calibration) (voltage : ℚ) : Int :=
  wrapInt32 (Cmath.round (voltage / k.stepSize))

/-! ## Machine arithmetic and clamping: supporting lemmas -/

theorem wrapInt32_of_range (x : Int) (h : -2147483648 ≤ x ∧ x < 2147483648) : wrapInt32 x = x := by
  unfold wrapInt32; omega

theorem wrapInt32_range (x : Int) : -2147483648 ≤ wrapInt32 x ∧ wrapInt32 x < 2147483648 := by
  unfold wrapInt32; omega

theorem Int32.shr_eq_div (a : Int) (n : Nat) : Int32.shr a n = a / 2 ^ n := by
  unfold Int32.shr
  rw [Int.shiftRight_eq_div_pow]; norm_cast

theorem LIMIT_of_mem (r : Nat) (h : 8 ≤ r ∧ r ≤ 29) : LIMIT r 8 29 = r := by
  unfold LIMIT
  have h1 : ¬ r < 8 := by omega
  have h2 : ¬ r > 29 := by omega
  simp [h1, h2]

theorem LIMIT_of_lt (r : Nat) (h : r < 8) : LIMIT r 8 29 = 8 := by
  unfold LIMIT; simp [h]

theorem LIMIT_of_gt (r : Nat) (h : 29 < r) : LIMIT r 8 29 = 29 := by
  unfold LIMIT
  have h1 : ¬ r < 8 := by omega
  simp [h1, h]

theorem maxCode_eq (r : Nat) (h : 8 ≤ r ∧ r ≤ 29) :
    Int.tdiv (wrapInt32 (2 ^ r)) 2 = 2 ^ (r - 1) := by
  obtain ⟨h8, h29⟩ := h
  interval_cases r <;> decide

theorem setResolution_codes (f : LTC2413.ConvFactorsType) (r : Nat) (h : 8 ≤ r ∧ r ≤ 29) :
    (f.setResolution r).BitShift = 29 - r ∧
    (f.setResolution r).MaximumCode = 2 ^ (r - 1) ∧
    (f.setResolution r).MinimumCode = -(2 ^ (r - 1)) ∧
    Int32.sub (f.setResolution r).MaximumCode (f.setResolution r).MinimumCode = 2 ^ r := by
  have hm := maxCode_eq r h
  simp only [LTC2413.ConvFactorsType.setResolution, LIMIT_of_mem r h, hm]
  obtain ⟨h8, h29⟩ := h
  refine ⟨by omega, trivial, ?_, ?_⟩
  · interval_cases r <;> decide
  · interval_cases r <;> decide

theorem shiftLeft16_or (a b : Nat) (hb : b < 65536) : a <<< 16 ||| b = a * 65536 + b := by
  have h := Nat.mul_add_lt_is_or (i := 16) hb a
  rw [Nat.shiftLeft_eq, Nat.mul_comm a (2 ^ 16), ← h]

theorem read_device_ready (d : LTC2413) (w : World) (h : d.m_EoC = true) :
    (d.read_device w).1 =
      wrapInt32 (((w.spiData w.spiTransfers % 65536) <<< 16 |||
        (w.spiData (w.spiTransfers + 1) % 65536) : Nat) : Int) ∧
    (d.read_device w).2.1 = { d with m_EoC := false } := by
  have hlt : w.spiData (w.spiTransfers + 1) % 65536 < 65536 := Nat.mod_lt _ (by decide)
  rw [shiftLeft16_or _ _ hlt]
  simp [LTC2413.read_device, h, LTC2413.ConvBufferType.buffer_32bit, SPI.transfer16,
    SPI.beginTransaction, SPI.endTransaction, digitalWrite]

theorem decode_exact (frame center : Int) (r : Nat) (h : 8 ≤ r ∧ r ≤ 29)
    (hf : -2147483648 ≤ frame ∧ frame < 2147483648)
    (hc : center = 2 ^ (r - 1) ∨ center = 2 ^ r) (hx : r ≤ 28 ∨ 0 ≤ frame) :
    Int32.sub (Int32.shr frame (29 - r)) center = Int32.shr frame (29 - r) - center := by
  unfold Int32.sub
  apply wrapInt32_of_range
  rw [Int32.shr_eq_div]
  obtain ⟨h8, h29⟩ := h
  interval_cases r <;> norm_num at hc hx ⊢ <;> omega

theorem LIMIT_mem (r : Nat) : 8 ≤ LIMIT r 8 29 ∧ LIMIT r 8 29 ≤ 29 := by
  unfold LIMIT
  split
  · omega
  · split <;> omega

theorem setResolution_clamp (f : LTC2413.ConvFactorsType) (r : Nat) :
    f.setResolution r = f.setResolution (LIMIT r 8 29) := by
  simp only [LTC2413.ConvFactorsType.setResolution, LIMIT_of_mem _ (LIMIT_mem r)]

theorem getConversion_busy (d : LTC2413) (w : World) (hbusy : d.m_EoC = false) :
    (d.getConversion w).1 =
      (match d.m_convFactors.Polarity with
        | LTC2413.ConvPolarityType.UNIPOLAR => Int32.sub 0 d.m_convFactors.MaximumCode
        | LTC2413.ConvPolarityType.BIPOLAR =>
          Int32.sub 0 (Int32.sub d.m_convFactors.MaximumCode d.m_convFactors.MinimumCode)) := by
  cases hp : d.m_convFactors.Polarity <;>
    simp [LTC2413.getConversion, LTC2413.read_device, hp, hbusy, Int32.shr]

theorem Int32.sub_zero_pow (k : Nat) (hk : k ≤ 29) : Int32.sub 0 (2 ^ k) = -(2 ^ k) := by
  unfold Int32.sub
  apply (wrapInt32_of_range _ _).trans (by simp)
  interval_cases k <;> norm_num

/-- While busy, `getConversion()` returns the centring constant negated, for
every resolution and polarity: never zero. -/
theorem LTC2413.getConversion_busy_value (d : LTC2413) (w : World) (r : Nat)
    (p : LTC2413.ConvPolarityType) :
    ((({ d with m_EoC := false }.setConvResolution r).setConvPolarity p).getConversion w).1 =
      (match p with
        | LTC2413.ConvPolarityType.UNIPOLAR => -(2 ^ (LIMIT r 8 29 - 1))
        | LTC2413.ConvPolarityType.BIPOLAR => -(2 ^ LIMIT r 8 29)) ∧
    ((({ d with m_EoC := false }.setConvResolution r).setConvPolarity p).getConversion w).1 < 0 := by
  have hk := LIMIT_mem r
  obtain ⟨-, hmax, -, hspan⟩ := setResolution_codes d.m_convFactors (LIMIT r 8 29) hk
  rw [← setResolution_clamp] at hmax hspan
  cases p
  · have hval : ((({ d with m_EoC := false }.setConvResolution r).setConvPolarity
        LTC2413.ConvPolarityType.UNIPOLAR).getConversion w).1 = -(2 ^ (LIMIT r 8 29 - 1)) := by
      rw [getConversion_busy _ w rfl]
      show Int32.sub 0 (d.m_convFactors.setResolution r).MaximumCode = _
      rw [hmax]
      exact Int32.sub_zero_pow _ (by omega)
    refine ⟨hval, ?_⟩
    rw [hval]
    simp
  · have hval : ((({ d with m_EoC := false }.setConvResolution r).setConvPolarity
        LTC2413.ConvPolarityType.BIPOLAR).getConversion w).1 = -(2 ^ LIMIT r 8 29) := by
      rw [getConversion_busy _ w rfl]
      show Int32.sub 0 (Int32.sub (d.m_convFactors.setResolution r).MaximumCode
        (d.m_convFactors.setResolution r).MinimumCode) = _
      rw [hspan]
      exact Int32.sub_zero_pow _ hk.2
    refine ⟨hval, ?_⟩
    rw [hval]
    simp

/-! ## The conversion channel -/

/-- The one place where the `int32_t` subtraction of the decoding wraps: at 29
bits with the top bit of the frame set. Unipolar, frame `0x80000000`: the
shift is 0, the frame reads `-2^31` as an `int32_t`, and subtracting
`max_code = 2^28` wraps to `0x70000000`. -/
theorem getConversion_wraps_at_29_bits :
    ((((LTC2413.sample true).setConvResolution 29).setConvPolarity
        LTC2413.ConvPolarityType.UNIPOLAR).getConversion
      (World.ofWords PinLevel.LOW [0x8000, 0x0000])).1 = 1879048192 := by
  decide

/-- C1: a read while ready returns the shift-then-centre decoding of the frame.
The frame is the `int32_t` whose bits are `(first_half << 16) | second_half`,
the first transfer being the high half. For every resolution `r` in `[8,29]`
and either polarity, `getConversion()` returns `(frame >> (29 - r)) - max_code`
when unipolar and `(frame >> (29 - r)) - (max_code - min_code)` when bipolar,
the shift and the subtraction being those of `int32_t`. The subtraction is the
exact integer difference whenever `r ≤ 28` or the frame's top bit is clear. -/
theorem LTC2413.getConversion_decodes (d : LTC2413) (w : World) (r : Nat)
    (p : LTC2413.ConvPolarityType) (hr : 8 ≤ r ∧ r ≤ 29) (hready : d.m_EoC = true) :
    let d1 := (d.setConvResolution r).setConvPolarity p
    let first_half := w.spiData w.spiTransfers % 65536
    let second_half := w.spiData (w.spiTransfers + 1) % 65536
    let frame := wrapInt32 ((first_half <<< 16 ||| second_half : Nat) : Int)
    let max_code := d1.m_convFactors.MaximumCode
    let min_code := d1.m_convFactors.MinimumCode
    let center := match p with
      | LTC2413.ConvPolarityType.UNIPOLAR => max_code
      | LTC2413.ConvPolarityType.BIPOLAR => max_code - min_code
    (d1.getConversion w).1 = Int32.sub (Int32.shr frame (29 - r)) center ∧
    (r ≤ 28 ∨ 0 ≤ frame → (d1.getConversion w).1 = Int32.shr frame (29 - r) - center) := by
  intro d1 first_half second_half frame max_code min_code center
  have hd1 : d1.m_EoC = true := hready
  obtain ⟨hraw, hst⟩ := read_device_ready d1 w hd1
  obtain ⟨hs, hmax, hmin, hspan⟩ := setResolution_codes d.m_convFactors r hr
  have hfac : (d1.read_device w).2.1.m_convFactors = d1.m_convFactors := by rw [hst]
  have hshift : d1.m_convFactors.BitShift = 29 - r := hs
  have hmax1 : max_code = 2 ^ (r - 1) := hmax
  have hmin1 : min_code = -(2 ^ (r - 1)) := hmin
  have hspan1 : Int32.sub max_code min_code = 2 ^ r := hspan
  have hspan2 : max_code - min_code = 2 ^ r := by
    rw [hmax1, hmin1]
    obtain ⟨h8, h29⟩ := hr
    obtain ⟨k, rfl⟩ : ∃ k, r = k + 1 := ⟨r - 1, by omega⟩
    simp [pow_succ]; ring
  have hres : (d1.getConversion w).1 = Int32.sub (Int32.shr frame (29 - r)) center := by
    cases p
    · have hp : d1.m_convFactors.Polarity = LTC2413.ConvPolarityType.UNIPOLAR := rfl
      simp only [LTC2413.getConversion, hp, hfac, hshift, hraw]
    · have hp : d1.m_convFactors.Polarity = LTC2413.ConvPolarityType.BIPOLAR := rfl
      simp only [LTC2413.getConversion, hp, hfac, hshift, hraw]
      show Int32.sub (Int32.shr frame (29 - r)) (Int32.sub max_code min_code) = _
      rw [hspan1, ← hspan2]
  refine ⟨hres, fun hx => ?_⟩
  rw [hres]
  apply decode_exact frame center r hr (wrapInt32_range _) _ hx
  cases p
  · exact Or.inl hmax1
  · exact Or.inr hspan2

/-- C1 at the fixture of the specification: 24 bits, bipolar, frame
`0x40000000` decodes to `0x02000000 - 0x01000000 = 16777216`. -/
theorem LTC2413.getConversion_decodes_witness :
    (8 ≤ 24 ∧ 24 ≤ 29) ∧ (LTC2413.sample true).m_EoC = true ∧
    ((((LTC2413.sample true).setConvResolution 24).setConvPolarity
        LTC2413.ConvPolarityType.BIPOLAR).getConversion
      (World.ofWords PinLevel.LOW [0x4000, 0x0000])).1 = 16777216 :=
  ⟨by decide, rfl,
   (LTC2413.getConversion_decodes (LTC2413.sample true) (World.ofWords PinLevel.LOW [0x4000, 0x0000])
      24 LTC2413.ConvPolarityType.BIPOLAR (by decide) rfl).1.trans (by decide)⟩

/-- C2: while busy, `getConversion()` does not return the sentinel 0. On a
driver as constructed (24 bits, bipolar) it returns `-16777216`, and after
`setConvPolarity(UNIPOLAR)` it returns `-8388608`: `read_device()` returns 0,
and `getConversion()` shifts and centres that 0 like a frame. -/
theorem LTC2413.getConversion_busy_returns_offset (w : World) :
    (LTC2413.sample false).m_EoC = false ∧
    ((LTC2413.sample false).getConversion w).1 = -16777216 ∧
    (((LTC2413.sample false).setConvPolarity LTC2413.ConvPolarityType.UNIPOLAR).getConversion w).1
      = -8388608 :=
  ⟨rfl, rfl, rfl⟩

/-- C3: while busy, `getConversion()` issues no operation at all (the trace,
and the whole world, are as before the call) and leaves the driver state, the
ready flag and every conversion factor included, unchanged. -/
theorem LTC2413.getConversion_busy_no_effect (d : LTC2413) (w : World) (hbusy : d.m_EoC = false) :
    (d.getConversion w).2.2.trace = w.trace ∧
    (d.getConversion w).2.2 = w ∧
    (d.getConversion w).2.1 = d := by
  cases hp : d.m_convFactors.Polarity <;>
    simp [LTC2413.getConversion, LTC2413.read_device, hp, hbusy]

/-- C3 on a freshly constructed driver: nothing is issued, nothing changes. -/
theorem LTC2413.getConversion_busy_no_effect_witness :
    (LTC2413.sample false).m_EoC = false ∧
    ((LTC2413.sample false).getConversion (World.ofWords PinLevel.HIGH [0x4000, 0])).2.2.trace = [] ∧
    ((LTC2413.sample false).getConversion (World.ofWords PinLevel.HIGH [0x4000, 0])).2.1
      = LTC2413.sample false :=
  ⟨rfl,
   (LTC2413.getConversion_busy_no_effect (LTC2413.sample false)
      (World.ofWords PinLevel.HIGH [0x4000, 0]) rfl).1,
   (LTC2413.getConversion_busy_no_effect (LTC2413.sample false)
      (World.ofWords PinLevel.HIGH [0x4000, 0]) rfl).2.2⟩

/-- C4: while ready, `getConversion()` issues exactly `beginTransaction`,
chip-select low, `transfer16`, `transfer16`, chip-select high,
`endTransaction`, for either polarity; two bus words are consumed; afterwards
the ready flag is false and nothing else of the driver state has changed. -/
theorem LTC2413.getConversion_ready_transfer (d : LTC2413) (w : World) (hready : d.m_EoC = true) :
    (d.getConversion w).2.2.trace = w.trace ++
      [IOEvent.beginTransaction d.m_spiSettings,
       IOEvent.digitalWrite d.m_csPin PinLevel.LOW,
       IOEvent.transfer16 0xFFFF,
       IOEvent.transfer16 0xFFFF,
       IOEvent.digitalWrite d.m_csPin PinLevel.HIGH,
       IOEvent.endTransaction] ∧
    (d.getConversion w).2.2.spiTransfers = w.spiTransfers + 2 ∧
    (d.getConversion w).2.1.m_EoC = false ∧
    (d.getConversion w).2.1 = { d with m_EoC := false } := by
  cases hp : d.m_convFactors.Polarity <;>
    simp [LTC2413.getConversion, LTC2413.read_device, hp, hready, SPI.transfer16,
      SPI.beginTransaction, SPI.endTransaction, digitalWrite]

/-- C4 on a constructed driver that has seen the device ready. -/
theorem LTC2413.getConversion_ready_transfer_witness :
    (LTC2413.sample true).m_EoC = true ∧
    ((LTC2413.sample true).getConversion (World.ofWords PinLevel.LOW [0x4000, 0])).2.2.trace =
      [IOEvent.beginTransaction
         { clock := 1000000, bitOrder := BitOrder.MSBFIRST, dataMode := SPIMode.SPI_MODE0 },
       IOEvent.digitalWrite 10 PinLevel.LOW,
       IOEvent.transfer16 0xFFFF,
       IOEvent.transfer16 0xFFFF,
       IOEvent.digitalWrite 10 PinLevel.HIGH,
       IOEvent.endTransaction] ∧
    ((LTC2413.sample true).getConversion (World.ofWords PinLevel.LOW [0x4000, 0])).2.1.m_EoC
      = false :=
  ⟨rfl,
   (LTC2413.getConversion_ready_transfer (LTC2413.sample true)
      (World.ofWords PinLevel.LOW [0x4000, 0]) rfl).1,
   (LTC2413.getConversion_ready_transfer (LTC2413.sample true)
      (World.ofWords PinLevel.LOW [0x4000, 0]) rfl).2.2.1⟩

/-- C5: once ready, `isConvReady()` returns true, issues nothing (no
chip-select write, no sample of the data-out line) and leaves the driver state
and the world unchanged; hence `n` successive calls all return true and leave
everything as a single call does, for every `n`. -/
theorem LTC2413.isConvReady_ready_noop (d : LTC2413) (w : World) (hready : d.m_EoC = true) :
    d.isConvReady w = (true, d, w) ∧
    (d.isConvReady w).2.2.trace = w.trace ∧
    ∀ n : Nat, LTC2413.isConvReadyTimes n d w = (List.replicate n true, d, w) := by
  have h1 : d.isConvReady w = (true, d, w) := by
    simp [LTC2413.isConvReady, hready]
  refine ⟨h1, by rw [h1], fun n => ?_⟩
  induction n with
  | zero => rfl
  | succ k ih => simp [LTC2413.isConvReadyTimes, h1, ih, List.replicate_succ]

/-- C5 for three successive polls of a ready driver. -/
theorem LTC2413.isConvReady_ready_noop_witness :
    (LTC2413.sample true).m_EoC = true ∧
    LTC2413.isConvReadyTimes 3 (LTC2413.sample true) (World.ofWords PinLevel.HIGH []) =
      ([true, true, true], LTC2413.sample true, World.ofWords PinLevel.HIGH []) :=
  ⟨rfl,
   (LTC2413.isConvReady_ready_noop (LTC2413.sample true) (World.ofWords PinLevel.HIGH []) rfl).2.2 3⟩

/-- C6: while busy, `isConvReady()` issues exactly chip-select low, one sample
of the data-out line, chip-select high, whatever the sample; no bus transfer is
made; it returns true exactly when the sampled level is low, and stores the
value it returns in the ready flag, the rest of the driver state unchanged. -/
theorem LTC2413.isConvReady_busy_samples (d : LTC2413) (w : World) (hbusy : d.m_EoC = false) :
    (d.isConvReady w).2.2.trace = w.trace ++
      [IOEvent.digitalWrite d.m_csPin PinLevel.LOW,
       IOEvent.digitalRead Pin.MISO,
       IOEvent.digitalWrite d.m_csPin PinLevel.HIGH] ∧
    (d.isConvReady w).2.2.spiTransfers = w.spiTransfers ∧
    (d.isConvReady w).2.2.misoReads = w.misoReads + 1 ∧
    ((d.isConvReady w).1 = true ↔ w.misoLevel w.misoReads = PinLevel.LOW) ∧
    (d.isConvReady w).2.1.m_EoC = (d.isConvReady w).1 ∧
    (d.isConvReady w).2.1 = { d with m_EoC := (d.isConvReady w).1 } := by
  cases hl : w.misoLevel w.misoReads <;>
    simp [LTC2413.isConvReady, hbusy, digitalWrite, digitalReadMISO, hl]

/-- C6 on a busy driver, with the data-out line low and with it high. -/
theorem LTC2413.isConvReady_busy_samples_witness :
    (LTC2413.sample false).m_EoC = false ∧
    ((LTC2413.sample false).isConvReady (World.ofWords PinLevel.LOW [])).2.2.trace =
      [IOEvent.digitalWrite 10 PinLevel.LOW, IOEvent.digitalRead Pin.MISO,
       IOEvent.digitalWrite 10 PinLevel.HIGH] ∧
    ((LTC2413.sample false).isConvReady (World.ofWords PinLevel.LOW [])).1 = true ∧
    ((LTC2413.sample false).isConvReady (World.ofWords PinLevel.HIGH [])).1 = false :=
  ⟨rfl,
   (LTC2413.isConvReady_busy_samples (LTC2413.sample false) (World.ofWords PinLevel.LOW []) rfl).1,
   (LTC2413.isConvReady_busy_samples (LTC2413.sample false)
      (World.ofWords PinLevel.LOW []) rfl).2.2.2.1.mpr rfl,
   by
     have h := (LTC2413.isConvReady_busy_samples (LTC2413.sample false)
       (World.ofWords PinLevel.HIGH []) rfl).2.2.2.1
     cases hv : ((LTC2413.sample false).isConvReady (World.ofWords PinLevel.HIGH [])).1
     · rfl
     · exact absurd (h.mp hv) (by decide)⟩

/-- C7: `clearConversion()` returns the value the ready flag had. When it was
true the call issues exactly `beginTransaction`, chip-select low, one 8-bit
transfer of `0xFF`, chip-select high, `endTransaction`, and leaves the flag
false; when it was false the call issues nothing and changes nothing. -/
theorem LTC2413.clearConversion_spec (d : LTC2413) (w : World) :
    (d.clearConversion w).1 = d.m_EoC ∧
    (d.m_EoC = true →
      (d.clearConversion w).2.2.trace = w.trace ++
        [IOEvent.beginTransaction d.m_spiSettings,
         IOEvent.digitalWrite d.m_csPin PinLevel.LOW,
         IOEvent.transfer 0xFF,
         IOEvent.digitalWrite d.m_csPin PinLevel.HIGH,
         IOEvent.endTransaction] ∧
      (d.clearConversion w).2.2.spiTransfers = w.spiTransfers + 1 ∧
      (d.clearConversion w).2.1 = { d with m_EoC := false }) ∧
    (d.m_EoC = false → (d.clearConversion w).2.1 = d ∧ (d.clearConversion w).2.2 = w) := by
  cases h : d.m_EoC <;>
    simp [LTC2413.clearConversion, h, SPI.transfer, SPI.beginTransaction, SPI.endTransaction,
      digitalWrite]

/-- C7 on a ready driver and on a busy driver. -/
theorem LTC2413.clearConversion_spec_witness :
    ((LTC2413.sample true).clearConversion (World.ofWords PinLevel.LOW [])).1 = true ∧
    ((LTC2413.sample true).clearConversion (World.ofWords PinLevel.LOW [])).2.2.trace =
      [IOEvent.beginTransaction
         { clock := 1000000, bitOrder := BitOrder.MSBFIRST, dataMode := SPIMode.SPI_MODE0 },
       IOEvent.digitalWrite 10 PinLevel.LOW,
       IOEvent.transfer 0xFF,
       IOEvent.digitalWrite 10 PinLevel.HIGH,
       IOEvent.endTransaction] ∧
    ((LTC2413.sample true).clearConversion (World.ofWords PinLevel.LOW [])).2.1
      = LTC2413.sample false ∧
    ((LTC2413.sample false).clearConversion (World.ofWords PinLevel.LOW [])).1 = false ∧
    ((LTC2413.sample false).clearConversion (World.ofWords PinLevel.LOW [])).2.1
      = LTC2413.sample false :=
  ⟨(LTC2413.clearConversion_spec (LTC2413.sample true) (World.ofWords PinLevel.LOW [])).1,
   ((LTC2413.clearConversion_spec (LTC2413.sample true) (World.ofWords PinLevel.LOW [])).2.1 rfl).1,
   ((LTC2413.clearConversion_spec (LTC2413.sample true) (World.ofWords PinLevel.LOW [])).2.1 rfl).2.2,
   (LTC2413.clearConversion_spec (LTC2413.sample false) (World.ofWords PinLevel.LOW [])).1,
   ((LTC2413.clearConversion_spec (LTC2413.sample false) (World.ofWords PinLevel.LOW [])).2.2 rfl).1⟩

/-- C8: for every resolution `r` with `8 ≤ r ≤ 29`, after
`setConvResolution(r)` the shift is `29 - r`, the maximum code is `2^(r-1)`,
the minimum code is its negation, and their difference `2^r` fits `int32_t`
(the `int32_t` subtraction yields `2^r` itself). -/
theorem LTC2413.setConvResolution_codes (d : LTC2413) (r : Nat) (hr : 8 ≤ r ∧ r ≤ 29) :
    let f := (d.setConvResolution r).m_convFactors
    f.BitShift = 29 - r ∧
    f.MaximumCode = 2 ^ (r - 1) ∧
    f.MinimumCode = -f.MaximumCode ∧
    f.MaximumCode - f.MinimumCode = 2 ^ r ∧
    ((2 : Int) ^ r < 2 ^ 31 ∧ Int32.sub f.MaximumCode f.MinimumCode = 2 ^ r) := by
  intro f
  obtain ⟨hs, hmax, hmin, hspan⟩ := setResolution_codes d.m_convFactors r hr
  have hs1 : f.BitShift = 29 - r := hs
  have hmax1 : f.MaximumCode = 2 ^ (r - 1) := hmax
  have hmin1 : f.MinimumCode = -(2 ^ (r - 1)) := hmin
  have hspan1 : Int32.sub f.MaximumCode f.MinimumCode = 2 ^ r := hspan
  refine ⟨hs1, hmax1, by rw [hmin1, hmax1], ?_, ?_, hspan1⟩
  · rw [hmax1, hmin1]
    obtain ⟨h8, h29⟩ := hr
    obtain ⟨k, rfl⟩ : ∃ k, r = k + 1 := ⟨r - 1, by omega⟩
    simp [pow_succ]; ring
  · exact pow_lt_pow_right₀ (by norm_num) (by omega)

/-- C8 at 16 bits: shift 13, codes `±32768`. -/
theorem LTC2413.setConvResolution_codes_witness :
    (8 ≤ 16 ∧ 16 ≤ 29) ∧
    ((LTC2413.sample false).setConvResolution 16).m_convFactors.BitShift = 13 ∧
    ((LTC2413.sample false).setConvResolution 16).m_convFactors.MaximumCode = 32768 ∧
    ((LTC2413.sample false).setConvResolution 16).m_convFactors.MinimumCode = -32768 :=
  ⟨by decide,
   (LTC2413.setConvResolution_codes (LTC2413.sample false) 16 (by decide)).1,
   (LTC2413.setConvResolution_codes (LTC2413.sample false) 16 (by decide)).2.1,
   rfl⟩

/-- C9: for every resolution argument outside `[8,29]`, `setConvResolution`
leaves the driver exactly as the nearest bound does (8 below the range, 29
above it): the same shift, codes and step size. -/
theorem LTC2413.setConvResolution_clamps (d : LTC2413) (r : Nat) (hout : r < 8 ∨ 29 < r) :
    d.setConvResolution r = d.setConvResolution (if r < 8 then 8 else 29) ∧
    (d.setConvResolution r).m_convFactors.BitShift = (if r < 8 then 21 else 0) ∧
    (d.setConvResolution r).m_convFactors.MaximumCode = (if r < 8 then 2 ^ 7 else 2 ^ 28) := by
  have hc : LIMIT r 8 29 = (if r < 8 then 8 else 29) := by
    rcases hout with h | h
    · rw [LIMIT_of_lt r h, if_pos h]
    · rw [LIMIT_of_gt r h, if_neg (by omega)]
  have heq : d.setConvResolution r = d.setConvResolution (if r < 8 then 8 else 29) := by
    unfold LTC2413.setConvResolution
    rw [setResolution_clamp, hc]
  refine ⟨heq, ?_, ?_⟩
  · rw [heq]; split <;> rfl
  · rw [heq]; split <;> rfl

/-- C9 at the arguments 3 and 200. -/
theorem LTC2413.setConvResolution_clamps_witness :
    (3 < 8 ∨ 29 < 3) ∧ (200 < 8 ∨ 29 < 200) ∧
    (LTC2413.sample false).setConvResolution 3 = (LTC2413.sample false).setConvResolution 8 ∧
    (LTC2413.sample false).setConvResolution 200 = (LTC2413.sample false).setConvResolution 29 :=
  ⟨by decide, by decide,
   (LTC2413.setConvResolution_clamps (LTC2413.sample false) 3 (by decide)).1,
   (LTC2413.setConvResolution_clamps (LTC2413.sample false) 200 (by decide)).1⟩

/-- C10: a reference voltage above 5 V is not halved after clamping. The
constructor called with 6 V yields `VRef_P = 5`, `VRef_N = -5` and a step of
`10 / 2^24`, where 5 V yields `VRef_P = 2.5`, `VRef_N = -2.5` and a step of
`5 / 2^24`: in `LIMIT(voltage_reference, 0, 5) / 2.0f` the division binds to
the last branch of the macro's conditional only. -/
theorem LTC2413.ctor_reference_above_range (cs_pin : Nat) (w : World) :
    (LTC2413.ctor cs_pin 6 w).1.m_convFactors.VRef_P = 5 ∧
    (LTC2413.ctor cs_pin 6 w).1.m_convFactors.VRef_N = -5 ∧
    (LTC2413.ctor cs_pin 6 w).1.m_convFactors.StepSize = 10 / 16777216 ∧
    (LTC2413.ctor cs_pin 5 w).1.m_convFactors.VRef_P = 5 / 2 ∧
    (LTC2413.ctor cs_pin 5 w).1.m_convFactors.VRef_N = -(5 / 2) ∧
    (LTC2413.ctor cs_pin 5 w).1.m_convFactors.StepSize = 5 / 16777216 := by
  have hspan := (setResolution_codes
    { VRef_P := 0, VRef_N := 0, StepSize := 0, MinimumCode := 0, MaximumCode := 0,
      ZeroOffset := 0, BitShift := 0, Polarity := LTC2413.ConvPolarityType.BIPOLAR } 24 (by decide)).2.2.2
  simp only [LTC2413.ConvFactorsType.setResolution] at hspan
  simp only [LTC2413.ctor, LTC2413.ConvFactorsType.ctor, LTC2413.ConvFactorsType.setResolution,
    hspan]
  norm_num

/-- Below the range the clamp does what the specification says: a negative
reference voltage yields the factors of 0 V. -/
theorem ConvFactorsType_ctor_below_range (v : ℚ) (hv : v < 0) (resolution : Nat)
    (polarity : LTC2413.ConvPolarityType) :
    LTC2413.ConvFactorsType.ctor v resolution polarity =
      LTC2413.ConvFactorsType.ctor 0 resolution polarity := by
  have h5 : ¬ (0 : ℚ) > 5 := by norm_num
  simp only [LTC2413.ConvFactorsType.ctor, hv, h5, if_true, if_false, lt_irrefl, zero_div]

/-- Above the range the positive reference is the clamp bound itself, 5, for
every reference voltage. -/
theorem ConvFactorsType_ctor_above_range (v : ℚ) (hv : 5 < v) (resolution : Nat)
    (polarity : LTC2413.ConvPolarityType) :
    (LTC2413.ConvFactorsType.ctor v resolution polarity).VRef_P = 5 ∧
    (LTC2413.ConvFactorsType.ctor 5 resolution polarity).VRef_P = 5 / 2 := by
  have h0 : ¬ v < 0 := by linarith
  simp only [LTC2413.ConvFactorsType.ctor, LTC2413.ConvFactorsType.setResolution, h0, hv]
  norm_num

/-! ## The calibration model: supporting lemmas -/

theorem Cmath.round_intCast (n : Int) : Cmath.round (n : ℚ) = n := by
  unfold Cmath.round
  split
  · rw [Int.floor_eq_iff]
    constructor <;> norm_num
  · rw [Int.ceil_eq_iff]
    constructor <;> norm_num

theorem Cmath.abs_round_sub_le (x : ℚ) : |(Cmath.round x : ℚ) - x| ≤ 1 / 2 := by
  unfold Cmath.round
  rw [abs_le]
  split
  · have h1 := Int.floor_le (x + 1 / 2)
    have h2 := Int.lt_floor_add_one (x + 1 / 2)
    constructor <;> linarith
  · have h1 := Int.le_ceil (x - 1 / 2)
    have h2 := Int.ceil_lt_add_one (x - 1 / 2)
    constructor <;> linarith

theorem Int32.sub_of_isInt32 (a b : Int) (h : isInt32 (a - b)) : Int32.sub a b = a - b :=
  wrapInt32_of_range _ h

theorem Int32.add_of_isInt32 (a b : Int) (h : isInt32 (a + b)) : Int32.add a b = a + b :=
  wrapInt32_of_range _ h

theorem Int32.sub_ne_zero (a b : Int) (ha : isInt32 a) (hb : isInt32 b) (hab : a ≠ b) :
    Int32.sub a b ≠ 0 := by
  unfold Int32.sub wrapInt32
  unfold isInt32 at ha hb
  omega

theorem Int32.sub_eq_zero_iff (a b : Int) (ha : isInt32 a) (hb : isInt32 b) :
    Int32.sub a b = 0 ↔ a = b := by
  unfold Int32.sub wrapInt32
  unfold isInt32 at ha hb
  omega

/-- C11: for every reference voltage in `[0,5]` the constructor yields
`VRef_P = Vref / 2`, `VRef_N = -VRef_P`, a zero offset, the factors of 24 bits
(shift 5, codes `±2^23`), bipolar polarity, and a step size of
`(VRef_P - VRef_N) / (max_code - min_code)`, which is `Vref / 2^24`. -/
theorem LTC2413.ctor_default_factors (cs_pin : Nat) (Vref : ℚ) (w : World)
    (hV : 0 ≤ Vref ∧ Vref ≤ 5) :
    let f := (LTC2413.ctor cs_pin Vref w).1.m_convFactors
    f.VRef_P = Vref / 2 ∧ f.VRef_N = -f.VRef_P ∧ f.ZeroOffset = 0 ∧
    (f.BitShift = 29 - 24 ∧ f.MaximumCode = 2 ^ 23 ∧ f.MinimumCode = -(2 ^ 23)) ∧
    f.Polarity = LTC2413.ConvPolarityType.BIPOLAR ∧
    f.StepSize = (f.VRef_P - f.VRef_N) / ((f.MaximumCode - f.MinimumCode : Int) : ℚ) ∧
    f.StepSize = Vref / 2 ^ 24 := by
  intro f
  obtain ⟨h0, h5⟩ := hV
  have hn0 : ¬ Vref < 0 := not_lt.mpr h0
  have hn5 : ¬ Vref > 5 := not_lt.mpr h5
  have hP : f.VRef_P = Vref / 2 := by
    simp [f, LTC2413.ctor, LTC2413.ConvFactorsType.ctor, LTC2413.ConvFactorsType.setResolution,
      hn0, hn5]
  have hN : f.VRef_N = -(Vref / 2) := by
    simp [f, LTC2413.ctor, LTC2413.ConvFactorsType.ctor, LTC2413.ConvFactorsType.setResolution,
      hn0, hn5]
  have hmax : f.MaximumCode = 2 ^ 23 :=
    (setResolution_codes
      { VRef_P := if Vref < 0 then 0 else if Vref > 5 then 5 else Vref / 2,
        VRef_N := (if Vref < 0 then 0 else if Vref > 5 then 5 else Vref / 2) * (-1),
        StepSize := 0, MinimumCode := 0, MaximumCode := 0, ZeroOffset := 0, BitShift := 0,
        Polarity := LTC2413.ConvPolarityType.BIPOLAR } 24 (by decide)).2.1
  have hmin : f.MinimumCode = -(2 ^ 23) :=
    (setResolution_codes
      { VRef_P := if Vref < 0 then 0 else if Vref > 5 then 5 else Vref / 2,
        VRef_N := (if Vref < 0 then 0 else if Vref > 5 then 5 else Vref / 2) * (-1),
        StepSize := 0, MinimumCode := 0, MaximumCode := 0, ZeroOffset := 0, BitShift := 0,
        Polarity := LTC2413.ConvPolarityType.BIPOLAR } 24 (by decide)).2.2.1
  have hstep : f.StepSize = (Vref / 2 - -(Vref / 2)) / ((2 ^ 24 : Int) : ℚ) := by
    have hspan : Int32.sub (Int.tdiv (wrapInt32 (2 ^ LIMIT 24 8 29)) 2)
        (Int32.mul (Int.tdiv (wrapInt32 (2 ^ LIMIT 24 8 29)) 2) (-1)) = 2 ^ 24 := by decide
    simp only [f, LTC2413.ctor, LTC2413.ConvFactorsType.ctor,
      LTC2413.ConvFactorsType.setResolution, hspan, hn0, hn5, if_false]
    norm_num
  refine ⟨hP, by rw [hN, hP], rfl, ⟨rfl, hmax, hmin⟩, rfl, ?_, ?_⟩
  · rw [hstep, hP, hN, hmax, hmin]; norm_num
  · rw [hstep]; push_cast; ring

/-- C11 at the reference voltages 5 V and 0 V, the bounds of the range. -/
theorem LTC2413.ctor_default_factors_witness :
    ((0 : ℚ) ≤ 5 ∧ (5 : ℚ) ≤ 5) ∧
    (LTC2413.ctor 10 5 (World.ofWords PinLevel.HIGH [])).1.m_convFactors.VRef_P = 5 / 2 ∧
    (LTC2413.ctor 10 5 (World.ofWords PinLevel.HIGH [])).1.m_convFactors.StepSize = 5 / 2 ^ 24 ∧
    (LTC2413.ctor 10 0 (World.ofWords PinLevel.HIGH [])).1.m_convFactors.StepSize = 0 / 2 ^ 24 :=
  ⟨by norm_num,
   (LTC2413.ctor_default_factors 10 5 (World.ofWords PinLevel.HIGH []) (by norm_num)).1,
   (LTC2413.ctor_default_factors 10 5 (World.ofWords PinLevel.HIGH []) (by norm_num)).2.2.2.2.2.2,
   (LTC2413.ctor_default_factors 10 0 (World.ofWords PinLevel.HIGH []) (by norm_num)).2.2.2.2.2.2⟩

theorem Cmath.round_zero : Cmath.round 0 = 0 := by
  simpa using Cmath.round_intCast 0

/-- C12, as stated, fails where an `int32_t` is exceeded. For the reference
points `(0 V, -1)` and `(1 V, 2147483647)`, two distinct `int32_t` codes, the
`int32_t` subtraction of the codes overflows and `calibrateConversion` sets a
step size of `-1 / 2^31`, not `(1 - 0) / (2147483647 - (-1)) = 1 / 2^31`, which
the constructor of `Calibration` does set. For the reference points
`(4.5 V, 0)` and `(5.0 V, 268435456)` the step size is `2^-29` and
`round(voltage_low / step_size - code_low)` is `2415919104`, which no
`int32_t` holds: the constructor of `Calibration` stores `-1879048192`. -/
theorem LTC2413.calibrateConversion_step_counterexample :
    (isInt32 (-1) ∧ isInt32 2147483647 ∧ (-1 : Int) ≠ 2147483647) ∧
    ((LTC2413.sample false).calibrateConversion
        ⟨⟨0, -1⟩, ⟨1, 2147483647⟩⟩).m_convFactors.StepSize
      ≠ (1 - 0) / (((2147483647 - (-1) : Int) : ℚ)) ∧
    ((LTC2413.sample false).calibrateConversion
        ⟨⟨0, -1⟩, ⟨1, 2147483647⟩⟩).m_convFactors.StepSize = -1 / 2147483648 ∧
    (Calibration.ctor ⟨0, -1⟩ ⟨1, 2147483647⟩).stepSize = 1 / 2147483648 ∧
    ((Calibration.ctor ⟨9 / 2, 0⟩ ⟨5, 268435456⟩).stepSize = 1 / 536870912 ∧
     Cmath.round ((9 / 2 : ℚ) / (1 / 536870912) - ((0 : Int) : ℚ)) = 2415919104 ∧
     (Calibration.ctor ⟨9 / 2, 0⟩ ⟨5, 268435456⟩).zeroOffset = -1879048192) := by
  have hsub : Int32.sub 2147483647 (-1) = -2147483648 := by decide
  have hx : (9 / 2 : ℚ) / (1 / 536870912) - ((0 : Int) : ℚ) = ((2415919104 : Int) : ℚ) := by
    norm_num
  have hround : Cmath.round ((9 / 2 : ℚ) / (1 / 536870912) - ((0 : Int) : ℚ)) = 2415919104 := by
    rw [hx, Cmath.round_intCast]
  have hstep : ((5 : ℚ) - 9 / 2) / (((268435456 : Int) : ℚ) - ((0 : Int) : ℚ)) = 1 / 536870912 := by
    norm_num
  refine ⟨by decide, ?_, ?_, ?_, ?_, hround, ?_⟩
  · simp only [LTC2413.calibrateConversion, LTC2413.outputCodeRange, hsub]
    norm_num
  · simp only [LTC2413.calibrateConversion, LTC2413.outputCodeRange, hsub]
    norm_num
  · simp only [Calibration.ctor, Calibration.rawValueRange]
    norm_num
  · simp only [Calibration.ctor, Calibration.rawValueRange, hstep]
  · simp only [Calibration.ctor, Calibration.rawValueRange, hstep, hround]
    decide

/-- C12, amended: for every pair of reference points with distinct codes, in
exact rational arithmetic, the constructor of `Calibration` sets
`step_size = (voltage_high - voltage_low) / (code_high - code_low)`, and so
does `LTC2413::calibrateConversion` when the difference
`code_high - code_low` fits an `int32_t`. When the two reference voltages are
distinct as well, so that the step size is not zero, the zero offset that the
constructor sets, and that `calibrateConversion` sets under the same
condition on the code difference, is `round(voltage_low / step_size - code_low)`
converted to `int32_t`, which is that rounded value itself whenever it fits. -/
theorem LTC2413.two_point_calibration (d : LTC2413) (voltage_low voltage_high : ℚ)
    (code_low code_high : Int) (hcode : code_low ≠ code_high) :
    let d1 := d.calibrateConversion ⟨⟨voltage_low, code_low⟩, ⟨voltage_high, code_high⟩⟩
    let k := Calibration.ctor ⟨voltage_low, code_low⟩ ⟨voltage_high, code_high⟩
    let step_size : ℚ := (voltage_high - voltage_low) / ((code_high - code_low : Int) : ℚ)
    let offset : Int := Cmath.round (voltage_low / step_size - (code_low : ℚ))
    ((code_high - code_low : Int) : ℚ) ≠ 0 ∧
    (k.stepSize = step_size ∧
     (isInt32 (code_high - code_low) → d1.m_convFactors.StepSize = step_size)) ∧
    (voltage_low ≠ voltage_high →
      step_size ≠ 0 ∧
      (k.zeroOffset = wrapInt32 offset ∧
       (isInt32 (code_high - code_low) → d1.m_convFactors.ZeroOffset = wrapInt32 offset)) ∧
      (isInt32 offset →
        k.zeroOffset = offset ∧
        (isInt32 (code_high - code_low) → d1.m_convFactors.ZeroOffset = offset))) := by
  intro d1 k step_size offset
  have hden : ((code_high - code_low : Int) : ℚ) ≠ 0 := by
    have : code_high - code_low ≠ 0 := fun h => hcode (by omega)
    exact_mod_cast this
  have hs1 : isInt32 (code_high - code_low) → d1.m_convFactors.StepSize = step_size := by
    intro hdiff
    simp only [d1, step_size, LTC2413.calibrateConversion, LTC2413.outputCodeRange,
      Int32.sub_of_isInt32 _ _ hdiff]
  have hs2 : k.stepSize = step_size := by
    simp only [k, step_size, Calibration.ctor, Calibration.rawValueRange]
    push_cast; rfl
  have hz1 : isInt32 (code_high - code_low) →
      d1.m_convFactors.ZeroOffset = wrapInt32 offset := by
    intro hdiff
    simp only [d1, offset, step_size, LTC2413.calibrateConversion, LTC2413.outputCodeRange,
      Int32.sub_of_isInt32 _ _ hdiff]
  have hz2 : k.zeroOffset = wrapInt32 offset := by
    simp only [k, offset, step_size, Calibration.ctor, Calibration.rawValueRange]
    push_cast; rfl
  refine ⟨hden, ⟨hs2, hs1⟩, fun hvolt => ⟨?_, ⟨hz2, hz1⟩, fun ho => ⟨?_, fun hdiff => ?_⟩⟩⟩
  · exact div_ne_zero (sub_ne_zero.mpr hvolt.symm) hden
  · rw [hz2, wrapInt32_of_range _ ho]
  · rw [hz1 hdiff, wrapInt32_of_range _ ho]

/-- C12, amended, at the fixture of the specification: `(1.0 V, 1000)` and
`(4.0 V, 4000)` give a step size of `0.001`, a zero offset of 0 and
`to_voltage(2500) = 2.5`, in the driver and in `Calibration`. -/
theorem LTC2413.two_point_calibration_witness :
    ((1000 : Int) ≠ 4000 ∧ (1 : ℚ) ≠ 4 ∧ isInt32 (4000 - 1000)) ∧
    (((LTC2413.sample false).calibrateConversion
        ⟨⟨1, 1000⟩, ⟨4, 4000⟩⟩).m_convFactors.StepSize = 1 / 1000 ∧
     ((LTC2413.sample false).calibrateConversion
        ⟨⟨1, 1000⟩, ⟨4, 4000⟩⟩).m_convFactors.ZeroOffset = 0 ∧
     ((LTC2413.sample false).calibrateConversion ⟨⟨1, 1000⟩, ⟨4, 4000⟩⟩).toVoltage 2500 = 5 / 2) ∧
    ((Calibration.ctor ⟨1, 1000⟩ ⟨4, 4000⟩).stepSize = 1 / 1000 ∧
     (Calibration.ctor ⟨1, 1000⟩ ⟨4, 4000⟩).zeroOffset = 0 ∧
     (Calibration.ctor ⟨1, 1000⟩ ⟨4, 4000⟩).ToVoltage 2500 = 5 / 2) := by
  have h := LTC2413.two_point_calibration (LTC2413.sample false) 1 4 1000 4000 (by decide)
  have hstep : ((4 : ℚ) - 1) / (((4000 - 1000 : Int)) : ℚ) = 1 / 1000 := by norm_num
  have hoff : Cmath.round ((1 : ℚ) / (1 / 1000) - ((1000 : Int) : ℚ)) = 0 := by
    have h0 : (1 : ℚ) / (1 / 1000) - ((1000 : Int) : ℚ) = 0 := by norm_num
    rw [h0, Cmath.round_zero]
  simp only [hstep, hoff] at h
  obtain ⟨-, ⟨hs2, hs1⟩, hrest⟩ := h
  obtain ⟨-, -, hfit⟩ := hrest (by norm_num)
  obtain ⟨hz2, hz1⟩ := hfit (by decide)
  have hs1 := hs1 (by decide)
  have hz1 := hz1 (by decide)
  refine ⟨⟨by decide, by norm_num, by decide⟩, ⟨hs1, hz1, ?_⟩, ⟨hs2, hz2, ?_⟩⟩
  · unfold LTC2413.toVoltage
    rw [hs1, hz1]; norm_num
  · unfold Calibration.ToVoltage
    rw [hs2, hz2]
    have ha : Int32.add 2500 0 = 2500 := by decide
    rw [ha]; norm_num

theorem floatDiv_zero (a : ℚ) :
    floatDiv a 0 = if a = 0 then FloatValue.nan else FloatValue.infinite (decide (a < 0)) := by
  simp [floatDiv]

theorem floatDiv_of_ne_zero (a b : ℚ) (hb : b ≠ 0) : floatDiv a b = FloatValue.finite (a / b) := by
  simp [floatDiv, hb]

theorem LTC2413.outputCodeRange_self (voltage_low voltage_high : ℚ) (code : Int) :
    LTC2413.outputCodeRange ⟨⟨voltage_low, code⟩, ⟨voltage_high, code⟩⟩ = 0 := by
  have h0 : wrapInt32 0 = 0 := by decide
  simp [LTC2413.outputCodeRange, Int32.sub, h0]

theorem Calibration.rawValueRange_self (voltage_low voltage_high : ℚ) (code : Int) :
    Calibration.rawValueRange ⟨voltage_low, code⟩ ⟨voltage_high, code⟩ = 0 := by
  simp [Calibration.rawValueRange]

/-- Where the code range is not zero, the `float` value of the step size is the
finite one that the rational field `StepSize` holds. -/
theorem LTC2413.stepSizeValue_finite (d : LTC2413) (cal : TwoPointCalibration)
    (h : LTC2413.outputCodeRange cal ≠ 0) :
    LTC2413.stepSizeValue cal
      = FloatValue.finite (d.calibrateConversion cal).m_convFactors.StepSize :=
  floatDiv_of_ne_zero _ _ h

/-- Where the code range is not zero, the `float` value of the step size is the
finite one that the rational field `stepSize` holds. -/
theorem Calibration.ctor_stepSizeValue_finite (ref_low ref_high : Calibration.ReferencePoint)
    (h : Calibration.rawValueRange ref_low ref_high ≠ 0) :
    Calibration.stepSizeValue ref_low ref_high
      = FloatValue.finite (Calibration.ctor ref_low ref_high).stepSize :=
  floatDiv_of_ne_zero _ _ h

/-- C13, as stated, fails: the degenerate pair `(1.0 V, 1000)`, `(4.0 V, 1000)`
is accepted by `calibrateConversion` and by the constructor of `Calibration`
alike; in each the code range, the divisor of the step size, is zero, and the
step size stored is the `float` quotient `3 / 0`, the positive infinity. -/
theorem LTC2413.degenerate_calibration_counterexample :
    (LTC2413.outputCodeRange ⟨⟨1, 1000⟩, ⟨4, 1000⟩⟩ = 0 ∧
     LTC2413.stepSizeValue ⟨⟨1, 1000⟩, ⟨4, 1000⟩⟩ = FloatValue.infinite false) ∧
    (Calibration.rawValueRange ⟨1, 1000⟩ ⟨4, 1000⟩ = 0 ∧
     Calibration.stepSizeValue ⟨1, 1000⟩ ⟨4, 1000⟩ = FloatValue.infinite false) := by
  have h1 := LTC2413.outputCodeRange_self 1 4 1000
  have h2 := Calibration.rawValueRange_self 1 4 1000
  refine ⟨⟨h1, ?_⟩, ⟨h2, ?_⟩⟩
  · unfold LTC2413.stepSizeValue
    rw [h1, floatDiv_zero]
    norm_num
  · unfold Calibration.stepSizeValue
    rw [h2, floatDiv_zero]
    norm_num

/-- C13, amended: a degenerate two-point calibration is not rejected. For every
pair of reference points with the same code, `calibrateConversion` and the
constructor of `Calibration` divide the voltage range by a code range of zero,
and the step size they store is that `float` quotient: an infinity, of the
sign of the voltage range, when the two reference voltages differ, and a NaN
when they are equal. -/
theorem LTC2413.degenerate_calibration_step (voltage_low voltage_high : ℚ) (code : Int) :
    let cal : TwoPointCalibration := ⟨⟨voltage_low, code⟩, ⟨voltage_high, code⟩⟩
    let ref_low : Calibration.ReferencePoint := ⟨voltage_low, code⟩
    let ref_high : Calibration.ReferencePoint := ⟨voltage_high, code⟩
    (LTC2413.outputCodeRange cal = 0 ∧
     LTC2413.stepSizeValue cal =
       if voltage_high = voltage_low then FloatValue.nan
       else FloatValue.infinite (decide (voltage_high < voltage_low))) ∧
    (Calibration.rawValueRange ref_low ref_high = 0 ∧
     Calibration.stepSizeValue ref_low ref_high =
       if voltage_high = voltage_low then FloatValue.nan
       else FloatValue.infinite (decide (voltage_high < voltage_low))) := by
  intro cal ref_low ref_high
  have h1 := LTC2413.outputCodeRange_self voltage_low voltage_high code
  have h2 := Calibration.rawValueRange_self voltage_low voltage_high code
  have hval : floatDiv (voltage_high - voltage_low) 0 =
      if voltage_high = voltage_low then FloatValue.nan
      else FloatValue.infinite (decide (voltage_high < voltage_low)) := by
    rw [floatDiv_zero]
    simp only [sub_eq_zero, sub_neg]
  refine ⟨⟨h1, ?_⟩, ⟨h2, ?_⟩⟩
  · show floatDiv (voltage_high - voltage_low) (LTC2413.outputCodeRange cal) = _
    rw [h1, hval]
  · show floatDiv (voltage_high - voltage_low) (Calibration.rawValueRange ref_low ref_high) = _
    rw [h2, hval]

/-- C14, as stated, fails at the top of the `int32_t` range. The calibration
built from `(1 V, 0)` and `(2 V, 1)` has step size 1 and zero offset 1; for
`c = 2147483646` both `c + 1` and `c + zero_offset` fit an `int32_t`, but
`(c + 1) + zero_offset` does not, and `ToVoltage(c + 1) - ToVoltage(c)` is
`-4294967295`, not the step size. -/
theorem Calibration.ToVoltage_linear_counterexample :
    (Calibration.ctor ⟨1, 0⟩ ⟨2, 1⟩).stepSize = 1 ∧
    (Calibration.ctor ⟨1, 0⟩ ⟨2, 1⟩).zeroOffset = 1 ∧
    isInt32 (2147483646 + 1) ∧
    isInt32 (2147483646 + (Calibration.ctor ⟨1, 0⟩ ⟨2, 1⟩).zeroOffset) ∧
    (Calibration.ctor ⟨1, 0⟩ ⟨2, 1⟩).ToVoltage (2147483646 + 1)
        - (Calibration.ctor ⟨1, 0⟩ ⟨2, 1⟩).ToVoltage 2147483646 = -4294967295 ∧
    (Calibration.ctor ⟨1, 0⟩ ⟨2, 1⟩).ToVoltage (2147483646 + 1)
        - (Calibration.ctor ⟨1, 0⟩ ⟨2, 1⟩).ToVoltage 2147483646
      ≠ (Calibration.ctor ⟨1, 0⟩ ⟨2, 1⟩).stepSize := by
  have hs : (Calibration.ctor ⟨1, 0⟩ ⟨2, 1⟩).stepSize = 1 := by
    simp only [Calibration.ctor, Calibration.rawValueRange]; norm_num
  have hz : (Calibration.ctor ⟨1, 0⟩ ⟨2, 1⟩).zeroOffset = 1 := by
    have hx : ((1 : ℚ) / ((2 - 1) / (((1 : Int) : ℚ) - ((0 : Int) : ℚ))) - ((0 : Int) : ℚ))
        = ((1 : Int) : ℚ) := by norm_num
    simp only [Calibration.ctor, Calibration.rawValueRange, hx, Cmath.round_intCast]
    decide
  have ha1 : Int32.add (2147483646 + 1) 1 = -2147483648 := by decide
  have ha0 : Int32.add 2147483646 1 = 2147483647 := by decide
  have hd : (Calibration.ctor ⟨1, 0⟩ ⟨2, 1⟩).ToVoltage (2147483646 + 1)
        - (Calibration.ctor ⟨1, 0⟩ ⟨2, 1⟩).ToVoltage 2147483646 = -4294967295 := by
    unfold Calibration.ToVoltage
    rw [hz, hs, ha1, ha0]; norm_num
  refine ⟨hs, hz, by decide, by rw [hz]; decide, hd, ?_⟩
  rw [hd, hs]; norm_num

/-- C14, amended: voltage conversion is linear. For every driver state and every
code `c`, `toVoltage(c + 1) - toVoltage(c)` is the step size; for every
`Calibration` and every code `c` with `c + zero_offset` and
`(c + 1) + zero_offset` both in `int32_t` range,
`ToVoltage(c + 1) - ToVoltage(c)` is the step size. -/
theorem LTC2413.toVoltage_linear (d : LTC2413) (k : Calibration) (c : Int)
    (h0 : isInt32 (c + k.zeroOffset)) (h1 : isInt32 (c + 1 + k.zeroOffset)) :
    d.toVoltage (c + 1) - d.toVoltage c = d.m_convFactors.StepSize ∧
    k.ToVoltage (c + 1) - k.ToVoltage c = k.stepSize := by
  constructor
  · unfold LTC2413.toVoltage
    push_cast; ring
  · unfold Calibration.ToVoltage
    rw [Int32.add_of_isInt32 _ _ h0, Int32.add_of_isInt32 _ _ h1]
    push_cast; ring

/-- C14, amended, on the calibration of `(1.0 V, 1000)`, `(4.0 V, 4000)` at the
code 2500. -/
theorem LTC2413.toVoltage_linear_witness :
    (isInt32 (2500 + (Calibration.mk (1 / 1000) 0).zeroOffset) ∧
     isInt32 (2500 + 1 + (Calibration.mk (1 / 1000) 0).zeroOffset)) ∧
    (Calibration.mk (1 / 1000) 0).ToVoltage (2500 + 1) - (Calibration.mk (1 / 1000) 0).ToVoltage 2500
      = 1 / 1000 :=
  ⟨by decide,
   (LTC2413.toVoltage_linear (LTC2413.sample false) (Calibration.mk (1 / 1000) 0) 2500
      (by decide) (by decide)).2⟩

/-! ## The range of the decoded code -/

theorem getConversion_ready_value (d : LTC2413) (w : World) (r : Nat)
    (p : LTC2413.ConvPolarityType) (hr : 8 ≤ r ∧ r ≤ 29) (hready : d.m_EoC = true) :
    (((d.setConvResolution r).setConvPolarity p).getConversion w).1 =
      Int32.sub
        (Int32.shr (wrapInt32 (((w.spiData w.spiTransfers % 65536) <<< 16 |||
          (w.spiData (w.spiTransfers + 1) % 65536) : Nat) : Int)) (29 - r))
        (if p = LTC2413.ConvPolarityType.UNIPOLAR then 2 ^ (r - 1) else 2 ^ r) := by
  obtain ⟨hraw, hst⟩ := read_device_ready ((d.setConvResolution r).setConvPolarity p) w hready
  obtain ⟨hs, hmax, -, hspan⟩ := setResolution_codes d.m_convFactors r hr
  have hfac : (((d.setConvResolution r).setConvPolarity p).read_device w).2.1.m_convFactors
      = ((d.setConvResolution r).setConvPolarity p).m_convFactors := by rw [hst]
  cases p
  · have hp : ((d.setConvResolution r).setConvPolarity
        LTC2413.ConvPolarityType.UNIPOLAR).m_convFactors.Polarity
        = LTC2413.ConvPolarityType.UNIPOLAR := rfl
    simp only [LTC2413.getConversion, hp, hfac, hraw, if_true]
    show Int32.sub (Int32.shr _ (d.m_convFactors.setResolution r).BitShift)
      (d.m_convFactors.setResolution r).MaximumCode = _
    rw [hs, hmax]
  · have hp : ((d.setConvResolution r).setConvPolarity
        LTC2413.ConvPolarityType.BIPOLAR).m_convFactors.Polarity
        = LTC2413.ConvPolarityType.BIPOLAR := rfl
    simp only [LTC2413.getConversion, hp, hfac, hraw]
    show Int32.sub (Int32.shr _ (d.m_convFactors.setResolution r).BitShift)
      (Int32.sub (d.m_convFactors.setResolution r).MaximumCode
        (d.m_convFactors.setResolution r).MinimumCode) = _
    rw [hs, hspan]
    rfl

theorem decode_range_unipolar (first_half second_half : Nat) (r : Nat) (hr : 8 ≤ r ∧ r ≤ 29)
    (hfirst : first_half < 16384) (hsecond : second_half < 65536) :
    let c := Int32.sub (Int32.shr (wrapInt32 ((first_half <<< 16 ||| second_half : Nat) : Int)) (29 - r))
      (2 ^ (r - 1));
    -(2 ^ (r - 1)) ≤ c ∧ c < 3 * 2 ^ (r - 1) ∧ (c < 2 ^ (r - 1) ↔ first_half < 8192) := by
  intro c
  have hc : c = Int32.sub (Int32.shr (wrapInt32 ((first_half * 65536 + second_half : Nat) : Int)) (29 - r))
      (2 ^ (r - 1)) := by rw [← shiftLeft16_or first_half second_half hsecond]
  have hw : wrapInt32 ((first_half * 65536 + second_half : Nat) : Int) = (first_half : Int) * 65536 + second_half := by
    push_cast
    apply wrapInt32_of_range
    constructor <;> omega
  rw [hc, hw, Int32.shr_eq_div]
  unfold Int32.sub wrapInt32
  obtain ⟨h8, h29⟩ := hr
  interval_cases r <;> norm_num <;> omega

theorem decode_range_bipolar (first_half second_half : Nat) (r : Nat) (hr : 8 ≤ r ∧ r ≤ 29)
    (hfirst : first_half < 16384) (hsecond : second_half < 65536) :
    let c := Int32.sub (Int32.shr (wrapInt32 ((first_half <<< 16 ||| second_half : Nat) : Int)) (29 - r))
      (2 ^ r);
    2 * -(2 ^ (r - 1)) ≤ c ∧ c < 2 * 2 ^ (r - 1) ∧
    ((-(2 ^ (r - 1)) ≤ c ∧ c < 2 ^ (r - 1)) ↔ (4096 ≤ first_half ∧ first_half < 12288)) := by
  intro c
  have hc : c = Int32.sub (Int32.shr (wrapInt32 ((first_half * 65536 + second_half : Nat) : Int)) (29 - r))
      (2 ^ r) := by rw [← shiftLeft16_or first_half second_half hsecond]
  have hw : wrapInt32 ((first_half * 65536 + second_half : Nat) : Int) = (first_half : Int) * 65536 + second_half := by
    push_cast
    apply wrapInt32_of_range
    constructor <;> omega
  rw [hc, hw, Int32.shr_eq_div]
  unfold Int32.sub wrapInt32
  obtain ⟨h8, h29⟩ := hr
  interval_cases r <;> norm_num <;> omega

/-- C15, as stated, fails. At 24 bits the well-formed frame `0x20000000` (sign
bit set, all data bits clear: a reading of zero) decodes in unipolar mode to
`8388608`, which is `max_code`, not below it; the well-formed frame
`0x00000000` decodes in bipolar mode to `-16777216`, below `min_code`. -/
theorem LTC2413.getConversion_range_counterexample :
    (((LTC2413.sample true).setConvResolution 24).setConvPolarity
        LTC2413.ConvPolarityType.UNIPOLAR).m_convFactors.MaximumCode = 8388608 ∧
    ((((LTC2413.sample true).setConvResolution 24).setConvPolarity
        LTC2413.ConvPolarityType.UNIPOLAR).getConversion
      (World.ofWords PinLevel.LOW [0x2000, 0x0000])).1 = 8388608 ∧
    (((LTC2413.sample true).setConvResolution 24).setConvPolarity
        LTC2413.ConvPolarityType.BIPOLAR).m_convFactors.MinimumCode = -8388608 ∧
    ((((LTC2413.sample true).setConvResolution 24).setConvPolarity
        LTC2413.ConvPolarityType.BIPOLAR).getConversion
      (World.ofWords PinLevel.LOW [0x0000, 0x0000])).1 = -16777216 := by
  decide

/-- C15, amended: for every resolution `r` in `[8,29]` and every well-formed
frame (bits 31 and 30 clear) read while ready, the code `c` that
`getConversion()` returns satisfies `min_code ≤ c < 3 * max_code` in unipolar
mode and `2 * min_code ≤ c < 2 * max_code` in bipolar mode. It lies in
`[min_code, max_code)` exactly when the sign bit 29 is clear (unipolar), and
exactly when bits 29 and 28 differ (bipolar). -/
theorem LTC2413.getConversion_range (d : LTC2413) (w : World) (r : Nat)
    (p : LTC2413.ConvPolarityType) (hr : 8 ≤ r ∧ r ≤ 29) (hready : d.m_EoC = true)
    (hframe : w.spiData w.spiTransfers % 65536 < 0x4000) :
    let d1 := (d.setConvResolution r).setConvPolarity p
    let first_half := w.spiData w.spiTransfers % 65536
    let c := (d1.getConversion w).1
    let min_code := d1.m_convFactors.MinimumCode
    let max_code := d1.m_convFactors.MaximumCode
    match p with
    | LTC2413.ConvPolarityType.UNIPOLAR =>
      min_code ≤ c ∧ c < 3 * max_code ∧ (c < max_code ↔ first_half < 0x2000)
    | LTC2413.ConvPolarityType.BIPOLAR =>
      2 * min_code ≤ c ∧ c < 2 * max_code ∧
      ((min_code ≤ c ∧ c < max_code) ↔ (0x1000 ≤ first_half ∧ first_half < 0x3000)) := by
  intro d1 first_half c min_code max_code
  obtain ⟨-, hmax, hmin, -⟩ := setResolution_codes d.m_convFactors r hr
  have hmax1 : max_code = 2 ^ (r - 1) := hmax
  have hmin1 : min_code = -(2 ^ (r - 1)) := hmin
  have hval := getConversion_ready_value d w r p hr hready
  have hlt : w.spiData (w.spiTransfers + 1) % 65536 < 65536 := Nat.mod_lt _ (by decide)
  cases p
  · have hc : c = Int32.sub (Int32.shr (wrapInt32 ((first_half <<< 16 |||
        (w.spiData (w.spiTransfers + 1) % 65536) : Nat) : Int)) (29 - r)) (2 ^ (r - 1)) := by
      exact hval.trans (by rw [if_pos rfl])
    show min_code ≤ c ∧ c < 3 * max_code ∧ (c < max_code ↔ first_half < 0x2000)
    rw [hmax1, hmin1, hc]
    exact decode_range_unipolar first_half _ r hr hframe hlt
  · have hc : c = Int32.sub (Int32.shr (wrapInt32 ((first_half <<< 16 |||
        (w.spiData (w.spiTransfers + 1) % 65536) : Nat) : Int)) (29 - r)) (2 ^ r) := by
      exact hval.trans (by rw [if_neg (by decide)])
    show 2 * min_code ≤ c ∧ c < 2 * max_code ∧
      ((min_code ≤ c ∧ c < max_code) ↔ (0x1000 ≤ first_half ∧ first_half < 0x3000))
    rw [hmax1, hmin1, hc]
    exact decode_range_bipolar first_half _ r hr hframe hlt

/-- C15, amended, at 24 bits, bipolar, on the in-range frame `0x10000000`
(sign clear, top data bit set): the code is `-8388608`, which is `min_code`. -/
theorem LTC2413.getConversion_range_witness :
    (8 ≤ 24 ∧ 24 ≤ 29) ∧ (LTC2413.sample true).m_EoC = true ∧
    (World.ofWords PinLevel.LOW [0x1000, 0x0000]).spiData
      (World.ofWords PinLevel.LOW [0x1000, 0x0000]).spiTransfers % 65536 < 0x4000 ∧
    (2 * (-8388608) : Int) ≤ ((((LTC2413.sample true).setConvResolution 24).setConvPolarity
        LTC2413.ConvPolarityType.BIPOLAR).getConversion
      (World.ofWords PinLevel.LOW [0x1000, 0x0000])).1 :=
  ⟨by decide, rfl, by decide,
   (LTC2413.getConversion_range (LTC2413.sample true) (World.ofWords PinLevel.LOW [0x1000, 0x0000])
      24 LTC2413.ConvPolarityType.BIPOLAR (by decide) rfl (by decide)).1⟩

/-! ## Code to voltage and back -/

theorem Calibration.ToCode_ToVoltage (k : Calibration) (hstep : k.stepSize ≠ 0) (c : Int)
    (hc : isInt32 (c + k.zeroOffset)) : k.ToCode (k.ToVoltage c) = c + k.zeroOffset := by
  unfold Calibration.ToCode Calibration.ToVoltage
  rw [Int32.add_of_isInt32 _ _ hc, mul_div_assoc, div_self hstep, mul_one,
    Cmath.round_intCast, wrapInt32_of_range _ hc]

/-- C16: `Calibration::ToCode(v)` is `round(v / stepSize)` converted to
`int32_t` (the rounded value itself whenever it fits) and does not depend on
the zero offset. So for a non-zero step size and every code `c` with
`c + zeroOffset` in `int32_t` range, `ToCode(ToVoltage(c)) = c + zeroOffset`;
and `ToCode(ToVoltage(c)) = c` for every such code if and only if the zero
offset is 0. -/
theorem Calibration.ToCode_ToVoltage_roundtrip (k : Calibration) (hstep : k.stepSize ≠ 0)
    (hzero : isInt32 k.zeroOffset) :
    (∀ v : ℚ, k.ToCode v = wrapInt32 (Cmath.round (v / k.stepSize)) ∧
      (isInt32 (Cmath.round (v / k.stepSize)) → k.ToCode v = Cmath.round (v / k.stepSize)) ∧
      ∀ z : Int, Calibration.ToCode { k with zeroOffset := z } v = k.ToCode v) ∧
    (∀ c : Int, isInt32 (c + k.zeroOffset) → k.ToCode (k.ToVoltage c) = c + k.zeroOffset) ∧
    ((∀ c : Int, isInt32 c → isInt32 (c + k.zeroOffset) → k.ToCode (k.ToVoltage c) = c)
      ↔ k.zeroOffset = 0) := by
  refine ⟨fun v => ⟨rfl, fun hv => wrapInt32_of_range _ hv, fun z => rfl⟩,
    fun c hc => Calibration.ToCode_ToVoltage k hstep c hc, ?_⟩
  constructor
  · intro h
    have h0 := h 0 (by decide) (by simpa using hzero)
    rw [Calibration.ToCode_ToVoltage k hstep 0 (by simpa using hzero)] at h0
    simpa using h0
  · intro hz c _ hc
    rw [Calibration.ToCode_ToVoltage k hstep c hc, hz, add_zero]

/-- C16 on a calibration with step size `0.001` and zero offset 7: the code
2500 comes back as 2507. -/
theorem Calibration.ToCode_ToVoltage_roundtrip_witness :
    ((Calibration.mk (1 / 1000) 7).stepSize ≠ 0 ∧ isInt32 (Calibration.mk (1 / 1000) 7).zeroOffset) ∧
    (Calibration.mk (1 / 1000) 7).ToCode ((Calibration.mk (1 / 1000) 7).ToVoltage 2500) = 2507 :=
  ⟨⟨by norm_num, by decide⟩,
   (Calibration.ToCode_ToVoltage_roundtrip (Calibration.mk (1 / 1000) 7) (by norm_num)
      (by decide)).2.1 2500 (by decide)⟩

/-! ## The two-point fit -/

/-- C17, as stated, fails where the rounded offset does not fit an `int32_t`.
For the reference points `(4.5 V, 0)` and `(5.0 V, 268435456)`, distinct in
code and in voltage, the step size is `2^-29` and the offset of the fit is
`2415919104`, above the largest `int32_t`; `calibrateConversion` stores
`-1879048192`, and `toVoltage(code_low)` is `-3.5`, 8 V away from 4.5 V. -/
theorem LTC2413.two_point_fit_counterexample :
    ((0 : Int) ≠ 268435456 ∧ (9 / 2 : ℚ) ≠ 5) ∧
    ((LTC2413.sample false).calibrateConversion
        ⟨⟨9 / 2, 0⟩, ⟨5, 268435456⟩⟩).m_convFactors.StepSize = 1 / 536870912 ∧
    Cmath.round ((9 / 2 : ℚ) / (1 / 536870912) - ((0 : Int) : ℚ)) = 2415919104 ∧
    ((LTC2413.sample false).calibrateConversion
        ⟨⟨9 / 2, 0⟩, ⟨5, 268435456⟩⟩).m_convFactors.ZeroOffset = -1879048192 ∧
    ((LTC2413.sample false).calibrateConversion ⟨⟨9 / 2, 0⟩, ⟨5, 268435456⟩⟩).toVoltage 0
      = -7 / 2 ∧
    ¬ (|((LTC2413.sample false).calibrateConversion ⟨⟨9 / 2, 0⟩, ⟨5, 268435456⟩⟩).toVoltage 0
          - 9 / 2|
        ≤ |((LTC2413.sample false).calibrateConversion
            ⟨⟨9 / 2, 0⟩, ⟨5, 268435456⟩⟩).m_convFactors.StepSize| / 2) := by
  have hsub : Int32.sub 268435456 0 = 268435456 := by decide
  have hs : ((LTC2413.sample false).calibrateConversion
      ⟨⟨9 / 2, 0⟩, ⟨5, 268435456⟩⟩).m_convFactors.StepSize = 1 / 536870912 := by
    simp only [LTC2413.calibrateConversion, LTC2413.outputCodeRange, hsub]
    norm_num
  have hx : (9 / 2 : ℚ) / (1 / 536870912) - ((0 : Int) : ℚ) = ((2415919104 : Int) : ℚ) := by
    norm_num
  have hround : Cmath.round ((9 / 2 : ℚ) / (1 / 536870912) - ((0 : Int) : ℚ)) = 2415919104 := by
    rw [hx, Cmath.round_intCast]
  have hz : ((LTC2413.sample false).calibrateConversion
      ⟨⟨9 / 2, 0⟩, ⟨5, 268435456⟩⟩).m_convFactors.ZeroOffset = -1879048192 := by
    have hstep' : ((5 : ℚ) - 9 / 2) / ((268435456 : Int) : ℚ) = 1 / 536870912 := by norm_num
    simp only [LTC2413.calibrateConversion, LTC2413.outputCodeRange, hsub, hstep', hround]
    decide
  have hv : ((LTC2413.sample false).calibrateConversion
      ⟨⟨9 / 2, 0⟩, ⟨5, 268435456⟩⟩).toVoltage 0 = -7 / 2 := by
    unfold LTC2413.toVoltage
    rw [hs, hz]; norm_num
  refine ⟨⟨by decide, by norm_num⟩, hs, hround, hz, hv, ?_⟩
  rw [hv, hs]
  norm_num [abs_of_pos, abs_of_neg]

theorem Calibration.ctor_zeroOffset (ref_low ref_high : Calibration.ReferencePoint) :
    (Calibration.ctor ref_low ref_high).zeroOffset
      = wrapInt32 (Calibration.roundedOffset ref_low ref_high) := rfl

theorem calibrateConversion_eq_ctor (d : LTC2413) (voltage_low voltage_high : ℚ)
    (code_low code_high : Int) (hdiff : isInt32 (code_high - code_low)) :
    (d.calibrateConversion ⟨⟨voltage_low, code_low⟩, ⟨voltage_high, code_high⟩⟩).m_convFactors.StepSize
      = (Calibration.ctor ⟨voltage_low, code_low⟩ ⟨voltage_high, code_high⟩).stepSize ∧
    (d.calibrateConversion ⟨⟨voltage_low, code_low⟩, ⟨voltage_high, code_high⟩⟩).m_convFactors.ZeroOffset
      = (Calibration.ctor ⟨voltage_low, code_low⟩ ⟨voltage_high, code_high⟩).zeroOffset := by
  have hrange : LTC2413.outputCodeRange ⟨⟨voltage_low, code_low⟩, ⟨voltage_high, code_high⟩⟩
      = Calibration.rawValueRange ⟨voltage_low, code_low⟩ ⟨voltage_high, code_high⟩ := by
    simp only [LTC2413.outputCodeRange, Calibration.rawValueRange,
      Int32.sub_of_isInt32 _ _ hdiff]
    push_cast; rfl
  simp only [LTC2413.calibrateConversion, Calibration.ctor, hrange]
  exact ⟨trivial, trivial⟩

theorem two_point_line (voltage_low voltage_high step : ℚ) (code_low code_high z : Int)
    (hstep : step ≠ 0)
    (hline : step * ((code_high : ℚ) - (code_low : ℚ)) = voltage_high - voltage_low)
    (hz : z = Cmath.round (voltage_low / step - (code_low : ℚ))) :
    |((code_low : ℚ) + (z : ℚ)) * step - voltage_low| ≤ |step| / 2 ∧
    |((code_high : ℚ) + (z : ℚ)) * step - voltage_high| ≤ |step| / 2 ∧
    ((code_low : ℚ) + (z : ℚ)) * step - voltage_low
      = ((code_high : ℚ) + (z : ℚ)) * step - voltage_high := by
  have heq : ((code_low : ℚ) + (z : ℚ)) * step - voltage_low
      = ((code_high : ℚ) + (z : ℚ)) * step - voltage_high := by
    linear_combination (-1 : ℚ) * hline
  have herr : ((code_low : ℚ) + (z : ℚ)) * step - voltage_low
      = step * ((z : ℚ) - (voltage_low / step - (code_low : ℚ))) := by
    field_simp
    ring
  have hlow : |((code_low : ℚ) + (z : ℚ)) * step - voltage_low| ≤ |step| / 2 := by
    rw [herr, abs_mul, hz]
    have hr := Cmath.abs_round_sub_le (voltage_low / step - (code_low : ℚ))
    have hs := abs_nonneg step
    calc |step| * |((Cmath.round (voltage_low / step - (code_low : ℚ)) : Int) : ℚ)
            - (voltage_low / step - (code_low : ℚ))|
        ≤ |step| * (1 / 2) := mul_le_mul_of_nonneg_left hr hs
      _ = |step| / 2 := by ring
  exact ⟨hlow, heq ▸ hlow, heq⟩

theorem two_point_step (voltage_low voltage_high : ℚ) (code_low code_high : Int)
    (hcode : code_low ≠ code_high) :
    ((code_high : ℚ) - (code_low : ℚ)) ≠ 0 ∧
    (voltage_high - voltage_low) / ((code_high : ℚ) - (code_low : ℚ))
      * ((code_high : ℚ) - (code_low : ℚ)) = voltage_high - voltage_low ∧
    ((voltage_high - voltage_low) / ((code_high : ℚ) - (code_low : ℚ)) = 0
      ↔ voltage_low = voltage_high) := by
  have hden : (code_high : ℚ) - (code_low : ℚ) ≠ 0 := by
    rw [sub_ne_zero]; exact_mod_cast hcode.symm
  refine ⟨hden, div_mul_cancel₀ _ hden, ?_⟩
  rw [div_eq_zero_iff, sub_eq_zero]
  constructor
  · rintro (h | h)
    · exact h.symm
    · exact absurd h hden
  · intro h; exact Or.inl h.symm

/-- C17, amended: the two-point fit passes through both reference points up
to the rounding of the offset, where no `int32_t` is exceeded. For every pair
of reference points with distinct codes and distinct voltages whose rounded
offset `round(voltage_low / step_size - code_low)` fits an `int32_t`:
when the code difference `code_high - code_low` fits an `int32_t`, `toVoltage`
of the calibrated driver is within `|step_size| / 2` of `voltage_low` at
`code_low` and of `voltage_high` at `code_high`, with equal errors; and when
`code_low + zero_offset` and `code_high + zero_offset` fit an `int32_t`, so is
`Calibration::ToVoltage` (exact rational arithmetic, round = nearest
integer). -/
theorem LTC2413.two_point_fit (d : LTC2413) (voltage_low voltage_high : ℚ)
    (code_low code_high : Int) (hcode : code_low ≠ code_high)
    (hvolt : voltage_low ≠ voltage_high)
    (hoff : isInt32 (Calibration.roundedOffset ⟨voltage_low, code_low⟩ ⟨voltage_high, code_high⟩)) :
    let d1 := d.calibrateConversion ⟨⟨voltage_low, code_low⟩, ⟨voltage_high, code_high⟩⟩
    let k := Calibration.ctor ⟨voltage_low, code_low⟩ ⟨voltage_high, code_high⟩
    (isInt32 (code_high - code_low) →
      |d1.toVoltage code_low - voltage_low| ≤ |d1.m_convFactors.StepSize| / 2 ∧
      |d1.toVoltage code_high - voltage_high| ≤ |d1.m_convFactors.StepSize| / 2 ∧
      d1.toVoltage code_low - voltage_low = d1.toVoltage code_high - voltage_high) ∧
    (isInt32 (code_low + k.zeroOffset) → isInt32 (code_high + k.zeroOffset) →
      |k.ToVoltage code_low - voltage_low| ≤ |k.stepSize| / 2 ∧
      |k.ToVoltage code_high - voltage_high| ≤ |k.stepSize| / 2 ∧
      k.ToVoltage code_low - voltage_low = k.ToVoltage code_high - voltage_high) := by
  intro d1 k
  obtain ⟨-, hline, hzero⟩ := two_point_step voltage_low voltage_high code_low code_high hcode
  have hkz : k.zeroOffset
      = Calibration.roundedOffset ⟨voltage_low, code_low⟩ ⟨voltage_high, code_high⟩ :=
    (Calibration.ctor_zeroOffset _ _).trans (wrapInt32_of_range _ hoff)
  have hks : k.stepSize
      = (voltage_high - voltage_low) / ((code_high : ℚ) - (code_low : ℚ)) := rfl
  have hstep : k.stepSize ≠ 0 := by
    rw [hks]; exact fun h => hvolt (hzero.mp h)
  have hround : k.zeroOffset = Cmath.round (voltage_low / k.stepSize - (code_low : ℚ)) := by
    rw [hkz]; rfl
  have hfit := two_point_line voltage_low voltage_high k.stepSize code_low code_high k.zeroOffset
    hstep (by rw [hks]; exact hline) hround
  constructor
  · intro hdiff
    obtain ⟨hs, hz⟩ :=
      calibrateConversion_eq_ctor d voltage_low voltage_high code_low code_high hdiff
    have hv : ∀ c : Int, d1.toVoltage c = ((c : ℚ) + (k.zeroOffset : ℚ)) * k.stepSize := by
      intro c
      unfold LTC2413.toVoltage
      rw [show d1.m_convFactors.StepSize = k.stepSize from hs,
        show d1.m_convFactors.ZeroOffset = k.zeroOffset from hz]
    rw [hv, hv, show d1.m_convFactors.StepSize = k.stepSize from hs]
    exact hfit
  · intro hlow hhigh
    have hv : ∀ c : Int, isInt32 (c + k.zeroOffset) →
        k.ToVoltage c = ((c : ℚ) + (k.zeroOffset : ℚ)) * k.stepSize := by
      intro c hc
      unfold Calibration.ToVoltage
      rw [Int32.add_of_isInt32 _ _ hc]
      push_cast; rfl
    rw [hv code_low hlow, hv code_high hhigh]
    exact hfit

theorem Calibration.roundedOffset_fixture :
    Calibration.roundedOffset ⟨1, 1000⟩ ⟨4, 4000⟩ = 0 := by
  have hx : ((1 : ℚ) / ((4 - 1) / (((4000 : Int) : ℚ) - ((1000 : Int) : ℚ)))
      - ((1000 : Int) : ℚ)) = 0 := by norm_num
  simp only [Calibration.roundedOffset, Calibration.rawValueRange, hx, Cmath.round_zero]

/-- C17, amended, at the fixture of the specification, whose fit is exact: the
error is the same at `(1.0 V, 1000)` and at `(4.0 V, 4000)`. -/
theorem LTC2413.two_point_fit_witness :
    ((1000 : Int) ≠ 4000 ∧ (1 : ℚ) ≠ 4 ∧
     isInt32 (Calibration.roundedOffset ⟨1, 1000⟩ ⟨4, 4000⟩)) ∧
    (isInt32 (4000 - 1000) ∧
     ((LTC2413.sample false).calibrateConversion ⟨⟨1, 1000⟩, ⟨4, 4000⟩⟩).toVoltage 1000 - 1
       = ((LTC2413.sample false).calibrateConversion ⟨⟨1, 1000⟩, ⟨4, 4000⟩⟩).toVoltage 4000 - 4) ∧
    ((isInt32 (1000 + (Calibration.ctor ⟨1, 1000⟩ ⟨4, 4000⟩).zeroOffset) ∧
      isInt32 (4000 + (Calibration.ctor ⟨1, 1000⟩ ⟨4, 4000⟩).zeroOffset)) ∧
     (Calibration.ctor ⟨1, 1000⟩ ⟨4, 4000⟩).ToVoltage 1000 - 1
       = (Calibration.ctor ⟨1, 1000⟩ ⟨4, 4000⟩).ToVoltage 4000 - 4) := by
  have h0 : isInt32 (Calibration.roundedOffset ⟨1, 1000⟩ ⟨4, 4000⟩) := by
    rw [Calibration.roundedOffset_fixture]; decide
  have hz : (Calibration.ctor ⟨1, 1000⟩ ⟨4, 4000⟩).zeroOffset = 0 := by
    rw [Calibration.ctor_zeroOffset, Calibration.roundedOffset_fixture]; decide
  have h1 : isInt32 (1000 + (Calibration.ctor ⟨1, 1000⟩ ⟨4, 4000⟩).zeroOffset) := by
    rw [hz]; decide
  have h2 : isInt32 (4000 + (Calibration.ctor ⟨1, 1000⟩ ⟨4, 4000⟩).zeroOffset) := by
    rw [hz]; decide
  have h := LTC2413.two_point_fit (LTC2413.sample false) 1 4 1000 4000 (by decide) (by norm_num) h0
  exact ⟨⟨by decide, by norm_num, h0⟩, ⟨by decide, (h.1 (by decide)).2.2⟩,
    ⟨⟨h1, h2⟩, (h.2 h1 h2).2.2⟩⟩

/-! ## The step size -/

/-- C18, as stated, fails: the reference points `(1.0 V, 1000)` and
`(1.0 V, 4000)` have distinct codes, and both `calibrateConversion` and the
constructor of `Calibration` compute a step size of zero for them. -/
theorem LTC2413.step_size_zero_counterexample :
    ((1000 : Int) ≠ 4000 ∧ isInt32 1000 ∧ isInt32 4000) ∧
    ((LTC2413.sample false).calibrateConversion ⟨⟨1, 1000⟩, ⟨1, 4000⟩⟩).m_convFactors.StepSize = 0 ∧
    (Calibration.ctor ⟨1, 1000⟩ ⟨1, 4000⟩).stepSize = 0 := by
  refine ⟨by decide, ?_, ?_⟩
  · simp [LTC2413.calibrateConversion]
  · simp [Calibration.ctor]

/-- C18, amended: in exact rational arithmetic (the codes converted to `float`
without rounding), for every pair of reference points with distinct
(`int32_t`) codes, the step size computed by `calibrateConversion` and by the
constructor of `Calibration` is a quotient by a non-zero code range, and it is
zero exactly when the two reference voltages are equal; it is never zero for
distinct voltages. -/
theorem LTC2413.step_size_zero_iff (d : LTC2413) (voltage_low voltage_high : ℚ)
    (code_low code_high : Int) (hlow : isInt32 code_low) (hhigh : isInt32 code_high)
    (hcode : code_low ≠ code_high) :
    let cal : TwoPointCalibration := ⟨⟨voltage_low, code_low⟩, ⟨voltage_high, code_high⟩⟩
    let k := Calibration.ctor ⟨voltage_low, code_low⟩ ⟨voltage_high, code_high⟩
    (LTC2413.outputCodeRange cal ≠ 0 ∧
     Calibration.rawValueRange ⟨voltage_low, code_low⟩ ⟨voltage_high, code_high⟩ ≠ 0) ∧
    ((d.calibrateConversion cal).m_convFactors.StepSize = 0 ↔ voltage_low = voltage_high) ∧
    (k.stepSize = 0 ↔ voltage_low = voltage_high) := by
  intro cal k
  have h1 : LTC2413.outputCodeRange cal ≠ 0 := by
    unfold LTC2413.outputCodeRange
    exact_mod_cast Int32.sub_ne_zero _ _ hhigh hlow hcode.symm
  have h2 : Calibration.rawValueRange ⟨voltage_low, code_low⟩ ⟨voltage_high, code_high⟩ ≠ 0 :=
    (two_point_step voltage_low voltage_high code_low code_high hcode).1
  refine ⟨⟨h1, h2⟩, ?_, ?_⟩
  · show (voltage_high - voltage_low) / LTC2413.outputCodeRange cal = 0 ↔ _
    rw [div_eq_zero_iff, sub_eq_zero]
    constructor
    · rintro (h | h)
      · exact h.symm
      · exact absurd h h1
    · intro h; exact Or.inl h.symm
  · exact (two_point_step voltage_low voltage_high code_low code_high hcode).2.2

/-- C18, amended, at the fixture of the specification: distinct codes, distinct
voltages, a non-zero step size. -/
theorem LTC2413.step_size_zero_iff_witness :
    (isInt32 1000 ∧ isInt32 4000 ∧ (1000 : Int) ≠ 4000) ∧
    ((LTC2413.sample false).calibrateConversion ⟨⟨1, 1000⟩, ⟨4, 4000⟩⟩).m_convFactors.StepSize ≠ 0 ∧
    (Calibration.ctor ⟨1, 1000⟩ ⟨4, 4000⟩).stepSize ≠ 0 :=
  ⟨by decide,
   fun h => absurd ((LTC2413.step_size_zero_iff (LTC2413.sample false) 1 4 1000 4000
     (by decide) (by decide) (by decide)).2.1.mp h) (by norm_num),
   fun h => absurd ((LTC2413.step_size_zero_iff (LTC2413.sample false) 1 4 1000 4000
     (by decide) (by decide) (by decide)).2.2.mp h) (by norm_num)⟩

/-! ## Resolution changes after a calibration -/

/-- C19: `setConvResolution` discards a field calibration's step size and keeps
its offset. For every driver state, one left by `calibrateConversion` included,
and every `r`, after `setConvResolution(r)` the step size is
`(VRef_P - VRef_N) / (max_code - min_code)` with the codes of the clamped
resolution (`max_code - min_code = 2^clamp(r)`), whatever the step size was
before; the zero offset, the polarity, `VRef_P`, `VRef_N`, the ready flag, the
chip-select pin and the bus settings are unchanged. The method is a function
of the driver state alone: it issues no operation. -/
theorem LTC2413.setConvResolution_discards_step (d : LTC2413) (r : Nat) (s : ℚ)
    (cal : TwoPointCalibration) :
    let d1 := d.setConvResolution r
    let f := d.m_convFactors
    let f1 := d1.m_convFactors
    (f1.StepSize = (f1.VRef_P - f1.VRef_N) / ((f1.MaximumCode - f1.MinimumCode : Int) : ℚ) ∧
     f1.MaximumCode - f1.MinimumCode = 2 ^ LIMIT r 8 29 ∧
     f1.StepSize = (f.VRef_P - f.VRef_N) / 2 ^ LIMIT r 8 29) ∧
    LTC2413.setConvResolution { d with m_convFactors := { f with StepSize := s } } r = d1 ∧
    (f1.ZeroOffset = f.ZeroOffset ∧ f1.Polarity = f.Polarity ∧ f1.VRef_P = f.VRef_P ∧
     f1.VRef_N = f.VRef_N ∧ d1.m_EoC = d.m_EoC ∧ d1.m_csPin = d.m_csPin ∧
     d1.m_spiSettings = d.m_spiSettings) ∧
    (((d.calibrateConversion cal).setConvResolution r).m_convFactors.StepSize = f1.StepSize ∧
     ((d.calibrateConversion cal).setConvResolution r).m_convFactors.ZeroOffset
       = (d.calibrateConversion cal).m_convFactors.ZeroOffset) := by
  intro d1 f f1
  have hk := LIMIT_mem r
  obtain ⟨-, hmax, hmin, hspan⟩ := setResolution_codes d.m_convFactors (LIMIT r 8 29) hk
  rw [← setResolution_clamp] at hmax hmin hspan
  have hmax1 : f1.MaximumCode = 2 ^ (LIMIT r 8 29 - 1) := hmax
  have hmin1 : f1.MinimumCode = -(2 ^ (LIMIT r 8 29 - 1)) := hmin
  have hdiff : f1.MaximumCode - f1.MinimumCode = 2 ^ LIMIT r 8 29 := by
    rw [hmax1, hmin1]
    obtain ⟨k, hk1⟩ : ∃ k, LIMIT r 8 29 = k + 1 := ⟨LIMIT r 8 29 - 1, by omega⟩
    rw [hk1]
    simp [pow_succ]; ring
  have hstep : f1.StepSize = (f.VRef_P - f.VRef_N) /
      ((Int32.sub f1.MaximumCode f1.MinimumCode : Int) : ℚ) := rfl
  have hspan1 : Int32.sub f1.MaximumCode f1.MinimumCode = 2 ^ LIMIT r 8 29 := hspan
  refine ⟨⟨?_, hdiff, ?_⟩, rfl, ⟨rfl, rfl, rfl, rfl, rfl, rfl, rfl⟩, rfl, rfl⟩
  · rw [hstep, hspan1, hdiff]
    rfl
  · rw [hstep, hspan1]
    push_cast; rfl

/-! ## Agreement of the two calibration implementations -/

/-- C20: the two calibration implementations agree. For every pair of reference
points whose code difference `code_high - code_low` fits an `int32_t`,
`LTC2413::calibrateConversion` and the constructor of `Calibration` compute the
same step size and the same zero offset, and for every code `c` with
`c + zero_offset` in `int32_t` range `LTC2413::toVoltage(c)` equals
`Calibration::ToVoltage(c)`. -/
theorem LTC2413.calibration_implementations_agree (d : LTC2413) (voltage_low voltage_high : ℚ)
    (code_low code_high : Int) (hdiff : isInt32 (code_high - code_low)) :
    let d1 := d.calibrateConversion ⟨⟨voltage_low, code_low⟩, ⟨voltage_high, code_high⟩⟩
    let k := Calibration.ctor ⟨voltage_low, code_low⟩ ⟨voltage_high, code_high⟩
    d1.m_convFactors.StepSize = k.stepSize ∧
    d1.m_convFactors.ZeroOffset = k.zeroOffset ∧
    ∀ c : Int, isInt32 (c + k.zeroOffset) → d1.toVoltage c = k.ToVoltage c := by
  intro d1 k
  obtain ⟨hs, hz⟩ := calibrateConversion_eq_ctor d voltage_low voltage_high code_low code_high hdiff
  refine ⟨hs, hz, fun c hc => ?_⟩
  unfold LTC2413.toVoltage Calibration.ToVoltage
  rw [show d1.m_convFactors.StepSize = k.stepSize from hs,
    show d1.m_convFactors.ZeroOffset = k.zeroOffset from hz, Int32.add_of_isInt32 _ _ hc]
  push_cast; rfl

/-- C20 at the fixture of the specification: the driver and `Calibration` agree
on the step size, on the zero offset and on the voltage of the code 2500. -/
theorem LTC2413.calibration_implementations_agree_witness :
    isInt32 (4000 - 1000) ∧
    ((LTC2413.sample false).calibrateConversion ⟨⟨1, 1000⟩, ⟨4, 4000⟩⟩).m_convFactors.StepSize
      = (Calibration.ctor ⟨1, 1000⟩ ⟨4, 4000⟩).stepSize ∧
    ((LTC2413.sample false).calibrateConversion ⟨⟨1, 1000⟩, ⟨4, 4000⟩⟩).m_convFactors.ZeroOffset
      = (Calibration.ctor ⟨1, 1000⟩ ⟨4, 4000⟩).zeroOffset ∧
    ((LTC2413.sample false).calibrateConversion ⟨⟨1, 1000⟩, ⟨4, 4000⟩⟩).toVoltage 2500
      = (Calibration.ctor ⟨1, 1000⟩ ⟨4, 4000⟩).ToVoltage 2500 := by
  have h := LTC2413.calibration_implementations_agree (LTC2413.sample false) 1 4 1000 4000
    (by decide)
  refine ⟨by decide, h.1, h.2.1, h.2.2 2500 ?_⟩
  rw [Calibration.ctor_zeroOffset, Calibration.roundedOffset_fixture]
  decide
